import Mathlib

/-!
Verification of the `options` command-line parsing package.

Go strings are byte sequences; command-line tokens are modelled as lists of
characters (`Str`).  Go's `error` interface values are modelled by the
inductive `GoError`, with `errors.Is` modelled by `errsIs`.  The engine
`parse` is a shallow embedding of the package's `parse` function; it returns,
besides the Go function's result, the trace of schema-callback invocations
(`Event`) made during the run, and a `panicked` outcome models a Go `panic`.
-/

abbrev Str := List Char

def str (s : String) : Str := s.data

def dash : Str := ['-']

def ddash : Str := ['-', '-']

/-- Model of Go `error` values as built by this package and its callers:
`base` is `errors.New`, `fmtE` is `fmt.Errorf` without a `%w` verb, `wrapf`
is `fmt.Errorf` with a `%w` verb (storing the full rendered message and the
wrapped cause), and `cmdline` is the package's `cmdlineError` wrapper. -/
inductive GoError where
  | base (msg : Str)
  | fmtE (msg : Str)
  | wrapf (msg : Str) (cause : GoError)
  | cmdline (inner : GoError)
deriving DecidableEq

/-- The `Error()` method: `cmdlineError.Error()` delegates to the wrapped
error's message. -/
def goMsg : GoError → Str
  | .base m => m
  | .fmtE m => m
  | .wrapf m _ => m
  | .cmdline e => goMsg e

def ErrCmdline : GoError := .base (str ("invalid command line"))

/-- The package's `Errorf` helper applied to a format string with no `%w`
verb: the `fmt` error wrapped in `cmdlineError`. -/
def Errorf (msg : Str) : GoError := .cmdline (.fmtE msg)

/-- The package's `Errorf` helper applied to a format with a `%w` verb:
`msg` is the fully rendered message, `cause` the wrapped operand. -/
def ErrorfW (msg : Str) (cause : GoError) : GoError := .cmdline (.wrapf msg cause)

def ErrHelp : GoError := Errorf (str ("help requested"))

def ErrVersion : GoError := Errorf (str ("version requested"))

def ErrUnknown : GoError := Errorf (str ("unknown option"))

def ErrNoSubcommand : GoError := Errorf (str ("no subcommand was provided"))

mutual

/-- Model of `errors.Is err target`: at each step compare for equality, then
consult the `Is` method (only `cmdlineError` has one, and it tests
`target == ErrCmdline`), then follow `Unwrap`.  `cmdlineError.Unwrap` is
`errors.Unwrap(e.error)`, i.e. it unwraps the error *inside* the wrapper;
`errsIsNext` performs that inner unwrap step. -/
def errsIs : GoError → GoError → Bool
  | GoError.base m, t => GoError.base m == t
  | GoError.fmtE m, t => GoError.fmtE m == t
  | GoError.wrapf m c, t => GoError.wrapf m c == t || errsIs c t
  | GoError.cmdline inner, t =>
    GoError.cmdline inner == t || t == ErrCmdline || errsIsNext inner t

def errsIsNext : GoError → GoError → Bool
  | GoError.wrapf _ c, t => errsIs c t
  | GoError.cmdline j, t => errsIsNext j t
  | _, _ => false

end

/-- The `Kind` enumeration of the package. -/
inductive Kind where
  | unknown
  | boolean
  | required
  | optional
  | takeTwoArgs
deriving DecidableEq

/-- The schema: the mandatory `Options` interface (`kind`, `option`) plus the
three optional capabilities, present iff the corresponding field is `some`
(modelling the Go type assertions `opts.(OptionsWithOptionN)` etc.).
Callbacks return `none` for a `nil` error. -/
structure Options where
  kind : Str → Kind
  option : Str → Str → Bool → Option GoError
  optionN : Option (Str → List Str → Option GoError)
  arg : Option (Nat → Str → Bool → Option GoError)
  args : Option (List Str → List Str → Option GoError)

/-- One recorded schema-callback invocation. -/
inductive Event where
  | opt (name value : Str) (hasValue : Bool)
  | optN (name : Str) (values : List Str)
  | arg (index : Nat) (value : Str) (afterDDash : Bool)
  | argsEv (before after : List Str)
deriving DecidableEq

/-- Outcome of a parse: the returned positionals, a returned error, or a
run-time `panic`. -/
inductive PResult where
  | ok (positional : List Str)
  | err (e : GoError)
  | panicked (msg : Str)
deriving DecidableEq

/-- The two mode flags (`earlyExit` and `noDDash` bits). -/
structure Flags where
  earlyExit : Bool
  noDDash : Bool
deriving DecidableEq

def quoteStr (s : Str) : Str := '"' :: s ++ ['"']

def requiresArgErr (name : Str) : GoError :=
  Errorf (str ("option ") ++ name ++ str (" requires an argument"))

def takesNoArgErr (name : Str) : GoError :=
  Errorf (str ("option ") ++ name ++ str (" takes no argument"))

def eqFormErr (name : Str) : GoError :=
  Errorf (str ("option ") ++ name ++ str (" takes 2 arguments; ") ++ name
    ++ str ("=VALUE form is not permitted"))

def requiresTwoErr (name : Str) : GoError :=
  Errorf (str ("option ") ++ name ++ str (" requires 2 arguments"))

def unknownOptErr (name : Str) : GoError :=
  Errorf (str ("unknown option ") ++ quoteStr name)

def invalidOptErr : GoError := Errorf (str ("invalid option '-'"))

/-- Wrapping of a failure signalled by a schema callback:
`Errorf("option %s: %w", name, err)`. -/
def optionCbErr (name : Str) (cause : GoError) : GoError :=
  ErrorfW (str ("option ") ++ name ++ str (": ") ++ goMsg cause) cause

def panicMsg1 : Str :=
  str ("Kind() returned TakeTwoArgs but OptionN method is not implemented")

def panicMsg2 : Str :=
  str ("Kind() returns TakeTwoArgs but OptionN method is not implemented")

/-- Model of `strings.Cut(s, "=")`: the part before the first `'='`, the part
after it, and whether a `'='` was found. -/
def cutEq : Str → Str × Str × Bool
  | [] => ([], [], false)
  | c :: cs =>
    if c = '=' then ([], cs, true)
    else
      let r := cutEq cs
      (c :: r.1, r.2.1, r.2.2)

/-- The separator branch's loop over the tokens after `--`: each is reported
through the per-item `Arg` capability with `afterDDash = true`, stopping at
the first failure. -/
def argLoop (f : Nat → Str → Bool → Option GoError) :
    Nat → List Str → List Event × Option GoError
  | _, [] => ([], none)
  | i, v :: vs =>
    match f i v true with
    | some e => ([.arg i v true], some e)
    | none =>
      let r := argLoop f (i + 1) vs
      (.arg i v true :: r.1, r.2)

def tokSize : List Str → Nat
  | [] => 0
  | t :: ts => t.length + 1 + tokSize ts

/-- Dispatch through the mandatory single-value `Option` capability (the
code after the classification `switch`): an `ErrUnknown` result is rewrapped
as an unknown-option error, any other failure is wrapped with the option
name, and on success the parse proceeds with `cont`, the outcome of the rest
of the run. -/
def dispatch (opts : Options) (name v : Str) (hv : Bool)
    (cont : List Event × PResult) : List Event × PResult :=
  match opts.option name v hv with
  | some e =>
    if e == ErrUnknown then ([.opt name v hv], .err (unknownOptErr name))
    else ([.opt name v hv], .err (optionCbErr name e))
  | none => (.opt name v hv :: cont.1, cont.2)

/-- Dispatch through the `OptionN` capability for a `TakeTwoArgs` option.
`rewrap` tells whether an `ErrUnknown` result is rewrapped as an
unknown-option error (the clustered and bare short forms do; the long form
wraps every failure alike).  A schema without the capability panics with
message `pmsg`. -/
def dispatchN (opts : Options) (name : Str) (vals : List Str) (rewrap : Bool)
    (pmsg : Str) (cont : List Event × PResult) : List Event × PResult :=
  match opts.optionN with
  | some nf =>
    match nf name vals with
    | some e =>
      if rewrap && e == ErrUnknown then ([.optN name vals], .err (unknownOptErr name))
      else ([.optN name vals], .err (optionCbErr name e))
    | none => (.optN name vals :: cont.1, cont.2)
  | none => ([], .panicked pmsg)

/-- Long-option branch of the classification `switch` (token with a `--`
prefix, longer than two bytes): split the token at the first `=`, classify
the part before it, and consume values according to the `Kind`.  `rec` is
the rest of the parse run (invoked with the loop state and the remaining
tokens). -/
def parseLong (opts : Options)
    (rec : List Str → Bool → List Str → List Event × PResult)
    (positional : List Str) (exited : Bool) (a0 : Str) (rest : List Str) :
    List Event × PResult :=
  match opts.kind (cutEq a0).1 with
  | .required =>
    if (cutEq a0).2.2 then
      dispatch opts (cutEq a0).1 (cutEq a0).2.1 true (rec positional exited rest)
    else
      match rest with
      | [] => ([], .err (requiresArgErr (cutEq a0).1))
      | v :: rest2 => dispatch opts (cutEq a0).1 v true (rec positional exited rest2)
  | .optional =>
    dispatch opts (cutEq a0).1 (cutEq a0).2.1 (cutEq a0).2.2 (rec positional exited rest)
  | .boolean =>
    if (cutEq a0).2.2 then ([], .err (takesNoArgErr (cutEq a0).1))
    else dispatch opts (cutEq a0).1 (cutEq a0).2.1 false (rec positional exited rest)
  | .takeTwoArgs =>
    if (cutEq a0).2.2 then ([], .err (eqFormErr (cutEq a0).1))
    else
      match rest with
      | v1 :: v2 :: rest2 =>
        dispatchN opts (cutEq a0).1 [v1, v2] false panicMsg1 (rec positional exited rest2)
      | _ => ([], .err (requiresTwoErr (cutEq a0).1))
  | .unknown => ([], .err (unknownOptErr (cutEq a0).1))

/-- Clustered short-option branch (single-dash token longer than two
bytes): the first two bytes are the name; a `Boolean` name rewrites the
token in place to `"-" + rest-of-token` and reclassifies it without
consuming input. -/
def parseCluster (opts : Options)
    (rec : List Str → Bool → List Str → List Event × PResult)
    (positional : List Str) (exited : Bool) (a0 : Str) (rest : List Str) :
    List Event × PResult :=
  match opts.kind (a0.take 2) with
  | .required =>
    dispatch opts (a0.take 2) (a0.drop 2) true (rec positional exited rest)
  | .optional =>
    dispatch opts (a0.take 2) (a0.drop 2) true (rec positional exited rest)
  | .boolean =>
    if (a0.drop 2).head? = some '-' then ([], .err invalidOptErr)
    else
      dispatch opts (a0.take 2) [] false (rec positional exited (('-' :: a0.drop 2) :: rest))
  | .takeTwoArgs =>
    match rest with
    | v2 :: rest2 =>
      dispatchN opts (a0.take 2) [a0.drop 2, v2] true panicMsg1 (rec positional exited rest2)
    | [] => ([], .err (requiresTwoErr (a0.take 2)))
  | .unknown => ([], .err (unknownOptErr (a0.take 2)))

/-- Bare short-option branch (exactly two bytes). -/
def parseBare (opts : Options)
    (rec : List Str → Bool → List Str → List Event × PResult)
    (positional : List Str) (exited : Bool) (a0 : Str) (rest : List Str) :
    List Event × PResult :=
  match opts.kind a0 with
  | .required =>
    match rest with
    | [] => ([], .err (requiresArgErr a0))
    | v :: rest2 => dispatch opts a0 v true (rec positional exited rest2)
  | .boolean => dispatch opts a0 [] false (rec positional exited rest)
  | .optional => dispatch opts a0 [] false (rec positional exited rest)
  | .takeTwoArgs =>
    match rest with
    | v1 :: v2 :: rest2 =>
      dispatchN opts a0 [v1, v2] true panicMsg2 (rec positional exited rest2)
    | _ => ([], .err (requiresTwoErr a0))
  | .unknown => ([], .err (unknownOptErr a0))

/-- First phase of the separator branch: the loop reporting each token after
`--` through the per-item capability, when present. -/
def sepArgPhase (opts : Options) (base : Nat) (rest : List Str) :
    List Event × Option GoError :=
  match opts.arg with
  | some f => argLoop f base rest
  | none => ([], none)

/-- One iteration of the `parse` loop: classify the token at the cursor and
either terminate, or hand the advanced state to `rec`, the rest of the run.
This is the loop body of the Go `parse` function; the decision order of its
`switch` is preserved. -/
def parseStep (opts : Options) (flags : Flags)
    (rec : List Str → Bool → List Str → List Event × PResult)
    (positional : List Str) (exited : Bool) (args : List Str) :
    List Event × PResult :=
  match args with
  | [] =>
    match opts.args with
    | some g =>
      match g positional [] with
      | some e => ([.argsEv positional []], .err e)
      | none => ([.argsEv positional []], .ok positional)
    | none => ([], .ok positional)
  | a0 :: rest =>
    if a0 = ddash ∧ flags.noDDash = false then
      match sepArgPhase opts positional.length rest with
      | (tr, some e) => (tr, .err e)
      | (tr, none) =>
        match opts.args with
        | some g =>
          match g positional rest with
          | some e => (tr ++ [.argsEv positional rest], .err e)
          | none => (tr ++ [.argsEv positional rest], .ok (positional ++ rest))
        | none => (tr, .ok (positional ++ rest))
    else if exited = true ∨ dash.isPrefixOf a0 = false ∨ a0 = dash ∨ a0 = ddash then
      match opts.arg with
      | some f =>
        match f positional.length a0 false with
        | some e => ([.arg positional.length a0 false], .err e)
        | none =>
          (.arg positional.length a0 false ::
              (rec (positional ++ [a0]) (exited || flags.earlyExit) rest).1,
            (rec (positional ++ [a0]) (exited || flags.earlyExit) rest).2)
      | none => rec (positional ++ [a0]) (exited || flags.earlyExit) rest
    else if ddash.isPrefixOf a0 = true then
      parseLong opts rec positional exited a0 rest
    else if 2 < a0.length then
      parseCluster opts rec positional exited a0 rest
    else
      parseBare opts rec positional exited a0 rest

/-- Marker for the unreachable out-of-fuel case of `parseF`; `parse` always
supplies more fuel than the loop can use (`parseF_irrel` and the unfolding
lemma `parse_unfold` show the case is never taken). -/
def fuelOut : List Event × PResult := ([], .panicked (str ("fuel exhausted")))

/-- The `parse` loop, driven by a fuel counter: each iteration consumes one
unit.  Every iteration of the Go loop strictly shrinks `tokSize args` (it
either consumes at least one token or shortens the head token by one byte),
so any fuel exceeding `tokSize args` is enough. -/
def parseF (opts : Options) (flags : Flags) :
    Nat → List Str → Bool → List Str → List Event × PResult
  | 0, _, _, _ => fuelOut
  | n + 1, positional, exited, args =>
    parseStep opts flags (parseF opts flags n) positional exited args

/-- Shallow embedding of the package's `parse` function.  `positional` and
`exited` are the loop state; the result carries the trace of callback
invocations alongside the Go function's return value. -/
def parse (opts : Options) (flags : Flags) (positional : List Str)
    (exited : Bool) (args : List Str) : List Event × PResult :=
  parseF opts flags (tokSize args + 1) positional exited args

/-- Entry point `Parse`: interleaving allowed. -/
def Parse (opts : Options) (args : List Str) : List Event × PResult :=
  parse opts ⟨false, false⟩ [] false args

/-- Entry point `ParsePOSIX`: stops option parsing at the first positional. -/
def ParsePOSIX (opts : Options) (args : List Str) : List Event × PResult :=
  parse opts ⟨true, false⟩ [] false args

/-- Entry point `ParseS`: early exit, `--` not special; an empty positional
result is replaced by `ErrNoSubcommand`. -/
def ParseS (opts : Options) (args : List Str) : List Event × PResult :=
  match parse opts ⟨true, true⟩ [] false args with
  | (tr, .ok l) => if l = [] then (tr, .err ErrNoSubcommand) else (tr, .ok l)
  | other => other

/-- Single-value dispatch for the memory-level parser: same rules as
`dispatch`, with failures leaving the backing array as it stands. -/
def dispatchS (opts : Options) (name v : Str) (hv : Bool) (backing : List Str)
    (cont : List Str × List (Nat × Str) × PResult) :
    List Str × List (Nat × Str) × PResult :=
  match opts.option name v hv with
  | some e =>
    if e == ErrUnknown then (backing, [], .err (unknownOptErr name))
    else (backing, [], .err (optionCbErr name e))
  | none => cont

/-- Two-value dispatch for the memory-level parser: same rules as
`dispatchN`. -/
def dispatchSN (opts : Options) (name : Str) (vals : List Str) (rewrap : Bool)
    (pmsg : Str) (backing : List Str)
    (cont : List Str × List (Nat × Str) × PResult) :
    List Str × List (Nat × Str) × PResult :=
  match opts.optionN with
  | some nf =>
    match nf name vals with
    | some e =>
      if rewrap && e == ErrUnknown then (backing, [], .err (unknownOptErr name))
      else (backing, [], .err (optionCbErr name e))
    | none => cont
  | none => (backing, [], .panicked pmsg)

/-- Prepend a performed write to the write log of a memory-level result. -/
def logWrite (w : Nat × Str) (r : List Str × List (Nat × Str) × PResult) :
    List Str × List (Nat × Str) × PResult := (r.1, w :: r.2.1, r.2.2)

/-- One iteration of the `parse` loop in its memory-level view, for the
frame analysis of the caller's `args` slice.  `backing` is the slice's
backing array and `off` the cursor: the Go re-slicings `args = args[k:]`
advance `off`, and the clustered-boolean branch's
`args[0] = "-" + args[0][2:]` writes into the backing array at `off` and is
the only branch that writes at all.  `args` is the current view of the
slice, equal to `backing.drop off` whenever the caller passes consistent
values (as `ParseSlice` does); the recursion maintains that
correspondence.  Each performed write is recorded in the returned log as an
(index, new value) pair; the result also carries the final backing array
and the parse outcome. -/
def sliceStep (opts : Options) (flags : Flags)
    (rec : List Str → Bool → List Str → Nat → List Str →
      List Str × List (Nat × Str) × PResult)
    (positional : List Str) (exited : Bool) (backing : List Str) (off : Nat)
    (args : List Str) : List Str × List (Nat × Str) × PResult :=
  match args with
  | [] =>
    match opts.args with
    | some g =>
      match g positional [] with
      | some e => (backing, [], .err e)
      | none => (backing, [], .ok positional)
    | none => (backing, [], .ok positional)
  | a0 :: rest =>
    if a0 = ddash ∧ flags.noDDash = false then
      match (sepArgPhase opts positional.length rest).2 with
      | some e => (backing, [], .err e)
      | none =>
        match opts.args with
        | some g =>
          match g positional rest with
          | some e => (backing, [], .err e)
          | none => (backing, [], .ok (positional ++ rest))
        | none => (backing, [], .ok (positional ++ rest))
    else if exited = true ∨ dash.isPrefixOf a0 = false ∨ a0 = dash ∨ a0 = ddash then
      match opts.arg with
      | some f =>
        match f positional.length a0 false with
        | some e => (backing, [], .err e)
        | none => rec (positional ++ [a0]) (exited || flags.earlyExit) backing (off + 1) rest
      | none => rec (positional ++ [a0]) (exited || flags.earlyExit) backing (off + 1) rest
    else if ddash.isPrefixOf a0 = true then
      match opts.kind (cutEq a0).1 with
      | .required =>
        if (cutEq a0).2.2 then
          dispatchS opts (cutEq a0).1 (cutEq a0).2.1 true backing
            (rec positional exited backing (off + 1) rest)
        else
          match rest with
          | [] => (backing, [], .err (requiresArgErr (cutEq a0).1))
          | v :: rest2 =>
            dispatchS opts (cutEq a0).1 v true backing
              (rec positional exited backing (off + 2) rest2)
      | .optional =>
        dispatchS opts (cutEq a0).1 (cutEq a0).2.1 (cutEq a0).2.2 backing
          (rec positional exited backing (off + 1) rest)
      | .boolean =>
        if (cutEq a0).2.2 then (backing, [], .err (takesNoArgErr (cutEq a0).1))
        else
          dispatchS opts (cutEq a0).1 (cutEq a0).2.1 false backing
            (rec positional exited backing (off + 1) rest)
      | .takeTwoArgs =>
        if (cutEq a0).2.2 then (backing, [], .err (eqFormErr (cutEq a0).1))
        else
          match rest with
          | v1 :: v2 :: rest2 =>
            dispatchSN opts (cutEq a0).1 [v1, v2] false panicMsg1 backing
              (rec positional exited backing (off + 3) rest2)
          | _ => (backing, [], .err (requiresTwoErr (cutEq a0).1))
      | .unknown => (backing, [], .err (unknownOptErr (cutEq a0).1))
    else if 2 < a0.length then
      match opts.kind (a0.take 2) with
      | .required =>
        dispatchS opts (a0.take 2) (a0.drop 2) true backing
          (rec positional exited backing (off + 1) rest)
      | .optional =>
        dispatchS opts (a0.take 2) (a0.drop 2) true backing
          (rec positional exited backing (off + 1) rest)
      | .boolean =>
        if (a0.drop 2).head? = some '-' then (backing, [], .err invalidOptErr)
        else
          logWrite (off, '-' :: a0.drop 2)
            (dispatchS opts (a0.take 2) [] false (backing.set off ('-' :: a0.drop 2))
              (rec positional exited (backing.set off ('-' :: a0.drop 2)) off
                (('-' :: a0.drop 2) :: rest)))
      | .takeTwoArgs =>
        match rest with
        | v2 :: rest2 =>
          dispatchSN opts (a0.take 2) [a0.drop 2, v2] true panicMsg1 backing
            (rec positional exited backing (off + 2) rest2)
        | [] => (backing, [], .err (requiresTwoErr (a0.take 2)))
      | .unknown => (backing, [], .err (unknownOptErr (a0.take 2)))
    else
      match opts.kind a0 with
      | .required =>
        match rest with
        | [] => (backing, [], .err (requiresArgErr a0))
        | v :: rest2 =>
          dispatchS opts a0 v true backing
            (rec positional exited backing (off + 2) rest2)
      | .boolean =>
        dispatchS opts a0 [] false backing
          (rec positional exited backing (off + 1) rest)
      | .optional =>
        dispatchS opts a0 [] false backing
          (rec positional exited backing (off + 1) rest)
      | .takeTwoArgs =>
        match rest with
        | v1 :: v2 :: rest2 =>
          dispatchSN opts a0 [v1, v2] true panicMsg2 backing
            (rec positional exited backing (off + 3) rest2)
        | _ => (backing, [], .err (requiresTwoErr a0))
      | .unknown => (backing, [], .err (unknownOptErr a0))

/-- Marker for the unreachable out-of-fuel case of `parseSliceF`. -/
def sliceFuelOut (backing : List Str) : List Str × List (Nat × Str) × PResult :=
  (backing, [], .panicked (str ("fuel exhausted")))

/-- The memory-level `parse` loop, driven by a fuel counter exactly like
`parseF`. -/
def parseSliceF (opts : Options) (flags : Flags) :
    Nat → List Str → Bool → List Str → Nat → List Str →
      List Str × List (Nat × Str) × PResult
  | 0, _, _, backing, _, _ => sliceFuelOut backing
  | n + 1, positional, exited, backing, off, args =>
    sliceStep opts flags
      (fun positional2 exited2 backing2 off2 args2 =>
        parseSliceF opts flags n positional2 exited2 backing2 off2 args2)
      positional exited backing off args

/-- Memory-level run of `parse`: reads tokens through the view `args` and
performs the clustered-boolean branch's writes on `backing`. -/
def parseSlice (opts : Options) (flags : Flags) (positional : List Str)
    (exited : Bool) (backing : List Str) (off : Nat) (args : List Str) :
    List Str × List (Nat × Str) × PResult :=
  parseSliceF opts flags (tokSize args + 1) positional exited backing off args

/-- Top-level run of the memory-level parser on a caller-supplied slice
covering its whole backing array. -/
def ParseSlice (opts : Options) (flags : Flags) (backing : List Str) :
    List Str × List (Nat × Str) × PResult :=
  parseSlice opts flags [] false backing 0 backing

/-- Concrete schema classification used by the witnesses, mirroring the
repository's test schema. -/
def exKind : Str → Kind
  | ['-', 'a'] => .boolean
  | ['-', 'b'] => .boolean
  | ['-', 'c'] => .boolean
  | ['-', 'r'] => .required
  | ['-', 'o'] => .optional
  | ['-', 's'] => .takeTwoArgs
  | ['-', '-', 'r', 'e', 'q', 'u', 'i', 'r', 'e', 'd'] => .required
  | ['-', '-', 's', 'e', 't'] => .takeTwoArgs
  | _ => .unknown

def okOpt : Str → Str → Bool → Option GoError := fun _ _ _ => none

/-- Schema with only the mandatory capability. -/
def bOpts : Options := ⟨exKind, okOpt, none, none, none⟩

/-- Schema with the two-value capability. -/
def nOpts : Options := ⟨exKind, okOpt, some (fun _ _ => none), none, none⟩

/-- Schema with every capability, all callbacks succeeding. -/
def wOpts : Options :=
  ⟨exKind, okOpt, some (fun _ _ => none), some (fun _ _ _ => none),
    some (fun _ _ => none)⟩

/-- Schema whose two-value capability signals the unknown-option sentinel. -/
def unknownNOpts : Options :=
  ⟨exKind, okOpt, some (fun _ _ => some ErrUnknown), none, none⟩

def isOptEvent : Event → Bool
  | .opt _ _ _ => true
  | .optN _ _ => true
  | _ => false

/-- Does a trace contain no option dispatch at all? -/
def noOptEvents (tr : List Event) : Bool := tr.all fun ev => !isOptEvent ev

/-- The sequence of values observed by the per-item positional callback, in
call order. -/
def argValues (tr : List Event) : List Str :=
  tr.filterMap fun ev =>
    match ev with
    | .arg _ v _ => some v
    | _ => none

/-- The expected per-item callback trace for the tokens after a separator:
indices continue from `base`, all tagged `afterDDash = true`. -/
def afterEvents (base : Nat) : List Str → List Event
  | [] => []
  | v :: vs => .arg base v true :: afterEvents (base + 1) vs

/-- All callbacks of the schema succeed on every input: every error the
parse can return is then synthesized by the engine itself. -/
def neverFails (opts : Options) : Prop :=
  (∀ n v h, opts.option n v h = none) ∧
  (∀ nf, opts.optionN = some nf → ∀ n vs, nf n vs = none) ∧
  (∀ f, opts.arg = some f → ∀ i v b, f i v b = none) ∧
  (∀ g, opts.args = some g → ∀ b a, g b a = none)

theorem parseF_succ (opts : Options) (flags : Flags) (n : Nat)
    (positional : List Str) (exited : Bool) (args : List Str) :
    parseF opts flags (n + 1) positional exited args =
      parseStep opts flags (parseF opts flags n) positional exited args := rfl

theorem tokSize_append (l1 l2 : List Str) :
    tokSize (l1 ++ l2) = tokSize l1 + tokSize l2 := by
  induction l1 with
  | nil => simp [tokSize]
  | cons t ts ih => simp [tokSize, ih]; omega

theorem tokSize_suffix_le (l1 l2 : List Str) (h : l1 <:+ l2) :
    tokSize l1 ≤ tokSize l2 := by
  obtain ⟨t, rfl⟩ := h
  rw [tokSize_append]
  omega

theorem parseLong_congr (opts : Options)
    (rec1 rec2 : List Str → Bool → List Str → List Event × PResult)
    (positional : List Str) (exited : Bool) (a0 : Str) (rest : List Str)
    (h : ∀ p e a, a <:+ rest → rec1 p e a = rec2 p e a) :
    parseLong opts rec1 positional exited a0 rest =
      parseLong opts rec2 positional exited a0 rest := by
  unfold parseLong
  repeat' split
  all_goals first
  | rfl
  | (rw [h] <;> first
      | exact ⟨[], rfl⟩
      | exact ⟨[_], rfl⟩
      | exact ⟨[_, _], rfl⟩)
  | simp_all

theorem parseCluster_congr (opts : Options)
    (rec1 rec2 : List Str → Bool → List Str → List Event × PResult)
    (positional : List Str) (exited : Bool) (a0 : Str) (rest : List Str)
    (h : ∀ p e a, a <:+ rest → rec1 p e a = rec2 p e a)
    (hcl : ∀ p e, rec1 p e (('-' :: a0.drop 2) :: rest) =
      rec2 p e (('-' :: a0.drop 2) :: rest)) :
    parseCluster opts rec1 positional exited a0 rest =
      parseCluster opts rec2 positional exited a0 rest := by
  unfold parseCluster
  repeat' split
  all_goals first
  | rfl
  | (rw [hcl])
  | (rw [h] <;> first
      | exact ⟨[], rfl⟩
      | exact ⟨[_], rfl⟩
      | exact ⟨[_, _], rfl⟩)
  | simp_all

theorem parseBare_congr (opts : Options)
    (rec1 rec2 : List Str → Bool → List Str → List Event × PResult)
    (positional : List Str) (exited : Bool) (a0 : Str) (rest : List Str)
    (h : ∀ p e a, a <:+ rest → rec1 p e a = rec2 p e a) :
    parseBare opts rec1 positional exited a0 rest =
      parseBare opts rec2 positional exited a0 rest := by
  unfold parseBare
  repeat' split
  all_goals first
  | rfl
  | (rw [h] <;> first
      | exact ⟨[], rfl⟩
      | exact ⟨[_], rfl⟩
      | exact ⟨[_, _], rfl⟩)
  | simp_all

theorem parseStep_congr (opts : Options) (flags : Flags)
    (rec1 rec2 : List Str → Bool → List Str → List Event × PResult)
    (positional : List Str) (exited : Bool) (args : List Str)
    (h : ∀ p e a, tokSize a < tokSize args → rec1 p e a = rec2 p e a) :
    parseStep opts flags rec1 positional exited args =
      parseStep opts flags rec2 positional exited args := by
  unfold parseStep
  repeat' split
  all_goals first
  | rfl
  | (rw [h] <;> simp [tokSize] <;> omega)
  | (exact parseLong_congr opts rec1 rec2 _ _ _ _ (fun p e a ha =>
      h p e a (by have := tokSize_suffix_le a _ ha; simp [tokSize]; omega)))
  | (exact parseBare_congr opts rec1 rec2 _ _ _ _ (fun p e a ha =>
      h p e a (by have := tokSize_suffix_le a _ ha; simp [tokSize]; omega)))
  | (exact parseCluster_congr opts rec1 rec2 _ _ _ _
      (fun p e a ha => h p e a
        (by have := tokSize_suffix_le a _ ha; simp [tokSize]; omega))
      (fun p e => h p e _ (by simp [tokSize, List.length_drop]; omega)))
  | simp_all

theorem parseF_irrel (opts : Options) (flags : Flags) :
    ∀ n m positional exited args, tokSize args < n → tokSize args < m →
      parseF opts flags n positional exited args =
        parseF opts flags m positional exited args := by
  intro n
  induction n with
  | zero => intro m pos e args h1 h2; omega
  | succ n ih =>
    intro m pos e args h1 h2
    cases m with
    | zero => omega
    | succ m =>
      rw [parseF_succ, parseF_succ]
      exact parseStep_congr opts flags _ _ pos e args
        (fun p e2 a ha => ih m p e2 a (by omega) (by omega))

theorem parse_unfold (opts : Options) (flags : Flags) (positional : List Str)
    (exited : Bool) (args : List Str) :
    parse opts flags positional exited args =
      parseStep opts flags (parse opts flags) positional exited args := by
  unfold parse
  rw [parseF_succ]
  exact parseStep_congr opts flags _ _ positional exited args
    (fun p e a ha => parseF_irrel opts flags (tokSize args) (tokSize a + 1)
      p e a (by omega) (by omega))

theorem parseSliceF_succ (opts : Options) (flags : Flags) (n : Nat)
    (positional : List Str) (exited : Bool) (backing : List Str) (off : Nat)
    (args : List Str) :
    parseSliceF opts flags (n + 1) positional exited backing off args =
      sliceStep opts flags (parseSliceF opts flags n) positional exited
        backing off args := rfl

theorem cutEq_no_sep : ∀ s : Str, '=' ∉ s → cutEq s = (s, [], false) := by
  intro s h
  induction s with
  | nil => rfl
  | cons c cs ih =>
    have hc : ¬ c = '=' := fun hh => h (hh ▸ List.mem_cons_self c cs)
    have hcs : '=' ∉ cs := fun hh => h (List.mem_cons_of_mem c hh)
    simp [cutEq, hc, ih hcs]

theorem cutEq_sep : ∀ s t : Str, '=' ∉ s → cutEq (s ++ '=' :: t) = (s, t, true) := by
  intro s t h
  induction s with
  | nil => simp [cutEq]
  | cons c cs ih =>
    have hc : ¬ c = '=' := fun hh => h (hh ▸ List.mem_cons_self c cs)
    have hcs : '=' ∉ cs := fun hh => h (List.mem_cons_of_mem c hh)
    simp [cutEq, hc, ih hcs]

theorem errsIs_self (e : GoError) : errsIs e e = true := by
  cases e <;> simp [errsIs]

theorem errsIs_cmdline_sentinel (inner : GoError) :
    errsIs (GoError.cmdline inner) ErrCmdline = true := by
  simp [errsIs]

theorem Errorf_is_cmdline (m : Str) : errsIs (Errorf m) ErrCmdline = true := by
  simp [Errorf, errsIs]

theorem ErrorfW_is_cmdline (m : Str) (c : GoError) :
    errsIs (ErrorfW m c) ErrCmdline = true := by
  simp [ErrorfW, errsIs]

theorem ErrorfW_is_cause (m : Str) (c : GoError) :
    errsIs (ErrorfW m c) c = true := by
  simp [ErrorfW, errsIs, errsIsNext, errsIs_self]

theorem argLoop_ok (f : Nat → Str → Bool → Option GoError)
    (hf : ∀ i v, f i v true = none) :
    ∀ base l, argLoop f base l = (afterEvents base l, none) := by
  intro base l
  induction l generalizing base with
  | nil => rfl
  | cons v vs ih => simp [argLoop, afterEvents, hf, ih]

theorem argValues_afterEvents : ∀ base l, argValues (afterEvents base l) = l := by
  intro base l
  induction l generalizing base with
  | nil => rfl
  | cons v vs ih => simp [afterEvents, argValues] at ih ⊢; exact ih _

theorem argLoop_none (f : Nat → Str → Bool → Option GoError) :
    ∀ base l tr, argLoop f base l = (tr, none) → argValues tr = l := by
  intro base l
  induction l generalizing base with
  | nil =>
    intro tr h
    rw [argLoop] at h
    injection h with h1 h2
    subst h1
    rfl
  | cons v vs ih =>
    intro tr h
    rw [argLoop] at h
    cases hf : f base v true with
    | some e =>
      rw [hf] at h
      exact absurd h (by simp)
    | none =>
      rw [hf] at h
      injection h with h1 h2
      subst h1
      have hpair : argLoop f (base + 1) vs = ((argLoop f (base + 1) vs).1, none) := by
        rw [← h2]
      have hv := ih (base + 1) _ hpair
      simp [argValues] at hv ⊢
      exact hv

theorem argLoop_noOpt (f : Nat → Str → Bool → Option GoError) :
    ∀ base l, noOptEvents (argLoop f base l).1 = true := by
  intro base l
  induction l generalizing base with
  | nil => rfl
  | cons v vs ih =>
    rw [argLoop]
    cases hf : f base v true with
    | some e => simp [noOptEvents, isOptEvent]
    | none =>
      have := ih (base + 1)
      simp [noOptEvents, isOptEvent] at this ⊢
      exact this

theorem dispatch_none (opts : Options) (name v : Str) (hv : Bool)
    (cont : List Event × PResult) (h : opts.option name v hv = none) :
    dispatch opts name v hv cont = (.opt name v hv :: cont.1, cont.2) := by
  simp only [dispatch, h]

theorem dispatchN_some_none (opts : Options) (name : Str) (vals : List Str)
    (rewrap : Bool) (pmsg : Str) (cont : List Event × PResult)
    (nf : Str → List Str → Option GoError) (hN : opts.optionN = some nf)
    (h : nf name vals = none) :
    dispatchN opts name vals rewrap pmsg cont = (.optN name vals :: cont.1, cont.2) := by
  simp only [dispatchN, hN, h]

theorem dispatchN_nocap (opts : Options) (name : Str) (vals : List Str)
    (rewrap : Bool) (pmsg : Str) (cont : List Event × PResult)
    (hN : opts.optionN = none) :
    dispatchN opts name vals rewrap pmsg cont = ([], .panicked pmsg) := by
  simp only [dispatchN, hN]

theorem dispatch_ok (opts : Options) (name v : Str) (hv : Bool)
    (cont : List Event × PResult) (tr : List Event) (l : List Str)
    (h : dispatch opts name v hv cont = (tr, PResult.ok l)) :
    opts.option name v hv = none ∧ tr = .opt name v hv :: cont.1 ∧
      cont.2 = PResult.ok l := by
  cases ho : opts.option name v hv with
  | some e =>
    simp only [dispatch, ho] at h
    by_cases he : (e == ErrUnknown) = true
    · rw [if_pos he] at h
      exact absurd h (by simp)
    · rw [if_neg he] at h
      exact absurd h (by simp)
  | none =>
    simp only [dispatch, ho] at h
    injection h with h1 h2
    exact ⟨rfl, h1.symm, h2⟩

theorem dispatchN_ok (opts : Options) (name : Str) (vals : List Str)
    (rewrap : Bool) (pmsg : Str) (cont : List Event × PResult)
    (tr : List Event) (l : List Str)
    (h : dispatchN opts name vals rewrap pmsg cont = (tr, PResult.ok l)) :
    (∃ nf, opts.optionN = some nf ∧ nf name vals = none) ∧
      tr = .optN name vals :: cont.1 ∧ cont.2 = PResult.ok l := by
  cases hN : opts.optionN with
  | none =>
    simp only [dispatchN, hN] at h
    exact absurd h (by simp)
  | some nf =>
    cases ho : nf name vals with
    | some e =>
      simp only [dispatchN, hN, ho] at h
      by_cases he : (rewrap && e == ErrUnknown) = true
      · rw [if_pos he] at h
        exact absurd h (by simp)
      · rw [if_neg he] at h
        exact absurd h (by simp)
    | none =>
      simp only [dispatchN, hN, ho] at h
      injection h with h1 h2
      exact ⟨⟨nf, rfl, ho⟩, h1.symm, h2⟩

theorem argValues_nil : argValues [] = [] := rfl

theorem argValues_cons_arg (i : Nat) (v : Str) (b : Bool) (tr : List Event) :
    argValues (.arg i v b :: tr) = v :: argValues tr := by
  simp [argValues]

theorem argValues_cons_opt (n v : Str) (b : Bool) (tr : List Event) :
    argValues (.opt n v b :: tr) = argValues tr := by
  simp [argValues]

theorem argValues_cons_optN (n : Str) (vs : List Str) (tr : List Event) :
    argValues (.optN n vs :: tr) = argValues tr := by
  simp [argValues]

theorem argValues_cons_argsEv (b a : List Str) (tr : List Event) :
    argValues (.argsEv b a :: tr) = argValues tr := by
  simp [argValues]

theorem argValues_append (t1 t2 : List Event) :
    argValues (t1 ++ t2) = argValues t1 ++ argValues t2 := by
  simp [argValues]

theorem noOptEvents_nil : noOptEvents [] = true := rfl

theorem noOptEvents_cons (ev : Event) (tr : List Event) :
    noOptEvents (ev :: tr) = (!isOptEvent ev && noOptEvents tr) := by
  simp [noOptEvents]

theorem noOptEvents_append (t1 t2 : List Event) :
    noOptEvents (t1 ++ t2) = (noOptEvents t1 && noOptEvents t2) := by
  simp [noOptEvents, List.all_append]

theorem parseLong_ok (opts : Options)
    (rec : List Str → Bool → List Str → List Event × PResult)
    (positional : List Str) (exited : Bool) (a0 : Str) (rest : List Str)
    (tr : List Event) (l : List Str)
    (h : parseLong opts rec positional exited a0 rest = (tr, PResult.ok l)) :
    ∃ ev args2, tr = ev :: (rec positional exited args2).1 ∧
      (rec positional exited args2).2 = PResult.ok l ∧ isOptEvent ev = true := by
  unfold parseLong at h
  repeat' split at h
  all_goals first
  | (exact absurd h (by simp))
  | (obtain ⟨ho, h1, h2⟩ := dispatch_ok _ _ _ _ _ _ _ h
     exact ⟨_, _, h1, h2, rfl⟩)
  | (obtain ⟨ho, h1, h2⟩ := dispatchN_ok _ _ _ _ _ _ _ _ h
     exact ⟨_, _, h1, h2, rfl⟩)

theorem parseCluster_ok (opts : Options)
    (rec : List Str → Bool → List Str → List Event × PResult)
    (positional : List Str) (exited : Bool) (a0 : Str) (rest : List Str)
    (tr : List Event) (l : List Str)
    (h : parseCluster opts rec positional exited a0 rest = (tr, PResult.ok l)) :
    ∃ ev args2, tr = ev :: (rec positional exited args2).1 ∧
      (rec positional exited args2).2 = PResult.ok l ∧ isOptEvent ev = true := by
  unfold parseCluster at h
  repeat' split at h
  all_goals first
  | (exact absurd h (by simp))
  | (obtain ⟨ho, h1, h2⟩ := dispatch_ok _ _ _ _ _ _ _ h
     exact ⟨_, _, h1, h2, rfl⟩)
  | (obtain ⟨ho, h1, h2⟩ := dispatchN_ok _ _ _ _ _ _ _ _ h
     exact ⟨_, _, h1, h2, rfl⟩)

theorem parseBare_ok (opts : Options)
    (rec : List Str → Bool → List Str → List Event × PResult)
    (positional : List Str) (exited : Bool) (a0 : Str) (rest : List Str)
    (tr : List Event) (l : List Str)
    (h : parseBare opts rec positional exited a0 rest = (tr, PResult.ok l)) :
    ∃ ev args2, tr = ev :: (rec positional exited args2).1 ∧
      (rec positional exited args2).2 = PResult.ok l ∧ isOptEvent ev = true := by
  unfold parseBare at h
  repeat' split at h
  all_goals first
  | (exact absurd h (by simp))
  | (obtain ⟨ho, h1, h2⟩ := dispatch_ok _ _ _ _ _ _ _ h
     exact ⟨_, _, h1, h2, rfl⟩)
  | (obtain ⟨ho, h1, h2⟩ := dispatchN_ok _ _ _ _ _ _ _ _ h
     exact ⟨_, _, h1, h2, rfl⟩)

theorem argValues_cons_optEvent (ev : Event) (tr : List Event)
    (h : isOptEvent ev = true) : argValues (ev :: tr) = argValues tr := by
  cases ev <;> simp [isOptEvent] at h ⊢ <;> simp [argValues]

theorem parseF_ok_argValues (opts : Options) (flags : Flags)
    (f : Nat → Str → Bool → Option GoError) (hf : opts.arg = some f) :
    ∀ n positional exited args l,
      (parseF opts flags n positional exited args).2 = PResult.ok l →
      l = positional ++ argValues (parseF opts flags n positional exited args).1 := by
  intro n
  induction n with
  | zero =>
    intro pos ex args l h
    simp [parseF, fuelOut] at h
  | succ n ih =>
    intro pos ex args l h
    rw [parseF_succ] at h ⊢
    cases args with
    | nil =>
      cases hga : opts.args with
      | none =>
        simp [parseStep, hga] at h ⊢
        simp [argValues_nil, h]
      | some g =>
        cases hg : g pos [] with
        | some e2 => simp [parseStep, hga, hg] at h
        | none =>
          simp [parseStep, hga, hg] at h ⊢
          simp [argValues_cons_argsEv, argValues_nil, h]
    | cons a0 rest =>
      by_cases hsep : a0 = ddash ∧ flags.noDDash = false
      · cases hal : argLoop f pos.length rest with
        | mk tr0 oe =>
          cases oe with
          | some e2 =>
            simp [parseStep, hsep, sepArgPhase, hf, hal] at h
          | none =>
            have hav := argLoop_none f pos.length rest tr0 hal
            cases hga : opts.args with
            | none =>
              simp [parseStep, hsep, sepArgPhase, hf, hal, hga] at h ⊢
              simp [hav, ← h]
            | some g =>
              cases hg : g pos rest with
              | some e2 =>
                simp [parseStep, hsep, sepArgPhase, hf, hal, hga, hg] at h
              | none =>
                simp [parseStep, hsep, sepArgPhase, hf, hal, hga, hg] at h ⊢
                simp [argValues_append, argValues_cons_argsEv, argValues_nil,
                  hav, ← h]
      · by_cases hfp : ex = true ∨ dash.isPrefixOf a0 = false ∨ a0 = dash ∨ a0 = ddash
        · cases hfa : f pos.length a0 false with
          | some e2 =>
            simp [parseStep, hsep, hfp, hf, hfa] at h
          | none =>
            simp [parseStep, hsep, hfp, hf, hfa] at h ⊢
            rw [argValues_cons_arg]
            rw [ih (pos ++ [a0]) (ex || flags.earlyExit) rest l h]
            simp
        · by_cases hlong : ddash.isPrefixOf a0 = true
          · simp [parseStep, hsep, hfp, hlong] at h ⊢
            have hpair : parseLong opts (parseF opts flags n) pos ex a0 rest =
                ((parseLong opts (parseF opts flags n) pos ex a0 rest).1,
                  PResult.ok l) := by
              rw [← h]
            obtain ⟨ev, args2, h1, h2, h3⟩ :=
              parseLong_ok opts _ pos ex a0 rest _ l hpair
            rw [h1, argValues_cons_optEvent ev _ h3]
            exact ih pos ex args2 l h2
          · by_cases hclu : 2 < a0.length
            · simp [parseStep, hsep, hfp, hlong, hclu] at h ⊢
              have hpair : parseCluster opts (parseF opts flags n) pos ex a0 rest =
                  ((parseCluster opts (parseF opts flags n) pos ex a0 rest).1,
                    PResult.ok l) := by
                rw [← h]
              obtain ⟨ev, args2, h1, h2, h3⟩ :=
                parseCluster_ok opts _ pos ex a0 rest _ l hpair
              rw [h1, argValues_cons_optEvent ev _ h3]
              exact ih pos ex args2 l h2
            · simp [parseStep, hsep, hfp, hlong, hclu] at h ⊢
              have hpair : parseBare opts (parseF opts flags n) pos ex a0 rest =
                  ((parseBare opts (parseF opts flags n) pos ex a0 rest).1,
                    PResult.ok l) := by
                rw [← h]
              obtain ⟨ev, args2, h1, h2, h3⟩ :=
                parseBare_ok opts _ pos ex a0 rest _ l hpair
              rw [h1, argValues_cons_optEvent ev _ h3]
              exact ih pos ex args2 l h2

theorem parseLong_err (opts : Options)
    (rec : List Str → Bool → List Str → List Event × PResult)
    (positional : List Str) (exited : Bool) (a0 : Str) (rest : List Str)
    (tr : List Event) (e : GoError)
    (hopt : ∀ n v b, opts.option n v b = none)
    (hoptN : ∀ nf, opts.optionN = some nf → ∀ n vs, nf n vs = none)
    (h : parseLong opts rec positional exited a0 rest = (tr, PResult.err e)) :
    (∃ inner, e = GoError.cmdline inner) ∨
      (∃ args2, (rec positional exited args2).2 = PResult.err e) := by
  unfold parseLong at h
  repeat' split at h
  all_goals first
  | (injection h with h1 h2
     injection h2 with h3
     subst h3
     exact Or.inl ⟨_, rfl⟩)
  | (rw [dispatch_none opts _ _ _ _ (hopt _ _ _)] at h
     injection h with h1 h2
     exact Or.inr ⟨_, h2⟩)
  | (cases hN : opts.optionN with
     | none =>
       rw [dispatchN_nocap _ _ _ _ _ _ hN] at h
       exact absurd h (by simp)
     | some nf =>
       rw [dispatchN_some_none _ _ _ _ _ _ nf hN (hoptN nf hN _ _)] at h
       injection h with h1 h2
       exact Or.inr ⟨_, h2⟩)

theorem parseCluster_err (opts : Options)
    (rec : List Str → Bool → List Str → List Event × PResult)
    (positional : List Str) (exited : Bool) (a0 : Str) (rest : List Str)
    (tr : List Event) (e : GoError)
    (hopt : ∀ n v b, opts.option n v b = none)
    (hoptN : ∀ nf, opts.optionN = some nf → ∀ n vs, nf n vs = none)
    (h : parseCluster opts rec positional exited a0 rest = (tr, PResult.err e)) :
    (∃ inner, e = GoError.cmdline inner) ∨
      (∃ args2, (rec positional exited args2).2 = PResult.err e) := by
  unfold parseCluster at h
  repeat' split at h
  all_goals first
  | (injection h with h1 h2
     injection h2 with h3
     subst h3
     exact Or.inl ⟨_, rfl⟩)
  | (rw [dispatch_none opts _ _ _ _ (hopt _ _ _)] at h
     injection h with h1 h2
     exact Or.inr ⟨_, h2⟩)
  | (cases hN : opts.optionN with
     | none =>
       rw [dispatchN_nocap _ _ _ _ _ _ hN] at h
       exact absurd h (by simp)
     | some nf =>
       rw [dispatchN_some_none _ _ _ _ _ _ nf hN (hoptN nf hN _ _)] at h
       injection h with h1 h2
       exact Or.inr ⟨_, h2⟩)

theorem parseBare_err (opts : Options)
    (rec : List Str → Bool → List Str → List Event × PResult)
    (positional : List Str) (exited : Bool) (a0 : Str) (rest : List Str)
    (tr : List Event) (e : GoError)
    (hopt : ∀ n v b, opts.option n v b = none)
    (hoptN : ∀ nf, opts.optionN = some nf → ∀ n vs, nf n vs = none)
    (h : parseBare opts rec positional exited a0 rest = (tr, PResult.err e)) :
    (∃ inner, e = GoError.cmdline inner) ∨
      (∃ args2, (rec positional exited args2).2 = PResult.err e) := by
  unfold parseBare at h
  repeat' split at h
  all_goals first
  | (injection h with h1 h2
     injection h2 with h3
     subst h3
     exact Or.inl ⟨_, rfl⟩)
  | (rw [dispatch_none opts _ _ _ _ (hopt _ _ _)] at h
     injection h with h1 h2
     exact Or.inr ⟨_, h2⟩)
  | (cases hN : opts.optionN with
     | none =>
       rw [dispatchN_nocap _ _ _ _ _ _ hN] at h
       exact absurd h (by simp)
     | some nf =>
       rw [dispatchN_some_none _ _ _ _ _ _ nf hN (hoptN nf hN _ _)] at h
       injection h with h1 h2
       exact Or.inr ⟨_, h2⟩)

theorem parseF_err_cmdline (opts : Options) (flags : Flags)
    (hopt : ∀ n v b, opts.option n v b = none)
    (hoptN : ∀ nf, opts.optionN = some nf → ∀ n vs, nf n vs = none)
    (harg : ∀ f2, opts.arg = some f2 → ∀ i v b, f2 i v b = none)
    (hargs : ∀ g, opts.args = some g → ∀ b a, g b a = none) :
    ∀ n positional exited args e,
      (parseF opts flags n positional exited args).2 = PResult.err e →
      ∃ inner, e = GoError.cmdline inner := by
  intro n
  induction n with
  | zero =>
    intro pos ex args e h
    simp [parseF, fuelOut] at h
  | succ n ih =>
    intro pos ex args e h
    rw [parseF_succ] at h
    cases args with
    | nil =>
      cases hga : opts.args with
      | none => simp [parseStep, hga] at h
      | some g => simp [parseStep, hga, hargs g hga pos []] at h
    | cons a0 rest =>
      by_cases hsep : a0 = ddash ∧ flags.noDDash = false
      · cases hfa : opts.arg with
        | none =>
          cases hga : opts.args with
          | none => simp [parseStep, hsep, sepArgPhase, hfa, hga] at h
          | some g =>
            simp [parseStep, hsep, sepArgPhase, hfa, hga, hargs g hga pos rest] at h
        | some f2 =>
          have hal := argLoop_ok f2 (fun i v => harg f2 hfa i v true) pos.length rest
          cases hga : opts.args with
          | none => simp [parseStep, hsep, sepArgPhase, hfa, hal, hga] at h
          | some g =>
            simp [parseStep, hsep, sepArgPhase, hfa, hal, hga, hargs g hga pos rest] at h
      · by_cases hfp : ex = true ∨ dash.isPrefixOf a0 = false ∨ a0 = dash ∨ a0 = ddash
        · cases hfa : opts.arg with
          | none =>
            simp [parseStep, hsep, hfp, hfa] at h
            exact ih _ _ _ _ h
          | some f2 =>
            simp [parseStep, hsep, hfp, hfa, harg f2 hfa pos.length a0 false] at h
            exact ih _ _ _ _ h
        · by_cases hlong : ddash.isPrefixOf a0 = true
          · simp [parseStep, hsep, hfp, hlong] at h
            have hpair : parseLong opts (parseF opts flags n) pos ex a0 rest =
                ((parseLong opts (parseF opts flags n) pos ex a0 rest).1,
                  PResult.err e) := by
              rw [← h]
            rcases parseLong_err opts _ pos ex a0 rest _ e hopt hoptN hpair with
              ⟨inner, hi⟩ | ⟨args2, h2⟩
            · exact ⟨inner, hi⟩
            · exact ih pos ex args2 e h2
          · by_cases hclu : 2 < a0.length
            · simp [parseStep, hsep, hfp, hlong, hclu] at h
              have hpair : parseCluster opts (parseF opts flags n) pos ex a0 rest =
                  ((parseCluster opts (parseF opts flags n) pos ex a0 rest).1,
                    PResult.err e) := by
                rw [← h]
              rcases parseCluster_err opts _ pos ex a0 rest _ e hopt hoptN hpair with
                ⟨inner, hi⟩ | ⟨args2, h2⟩
              · exact ⟨inner, hi⟩
              · exact ih pos ex args2 e h2
            · simp [parseStep, hsep, hfp, hlong, hclu] at h
              have hpair : parseBare opts (parseF opts flags n) pos ex a0 rest =
                  ((parseBare opts (parseF opts flags n) pos ex a0 rest).1,
                    PResult.err e) := by
                rw [← h]
              rcases parseBare_err opts _ pos ex a0 rest _ e hopt hoptN hpair with
                ⟨inner, hi⟩ | ⟨args2, h2⟩
              · exact ⟨inner, hi⟩
              · exact ih pos ex args2 e h2

theorem parseF_exited_noOpt (opts : Options) (flags : Flags) :
    ∀ n positional args,
      noOptEvents (parseF opts flags n positional true args).1 = true := by
  intro n
  induction n with
  | zero => intro pos args; simp [parseF, fuelOut, noOptEvents_nil]
  | succ n ih =>
    intro pos args
    rw [parseF_succ]
    cases args with
    | nil =>
      cases hga : opts.args with
      | none => simp [parseStep, hga, noOptEvents_nil]
      | some g =>
        cases hg : g pos [] with
        | some e2 => simp [parseStep, hga, hg, noOptEvents, isOptEvent]
        | none => simp [parseStep, hga, hg, noOptEvents, isOptEvent]
    | cons a0 rest =>
      by_cases hsep : a0 = ddash ∧ flags.noDDash = false
      · cases hfa : opts.arg with
        | none =>
          cases hga : opts.args with
          | none => simp [parseStep, hsep, sepArgPhase, hfa, hga, noOptEvents_nil]
          | some g =>
            cases hg : g pos rest with
            | some e2 => simp [parseStep, hsep, sepArgPhase, hfa, hga, hg, noOptEvents, isOptEvent]
            | none => simp [parseStep, hsep, sepArgPhase, hfa, hga, hg, noOptEvents, isOptEvent]
        | some f2 =>
          have hno : noOptEvents (argLoop f2 pos.length rest).1 = true :=
            argLoop_noOpt f2 pos.length rest
          cases hal : argLoop f2 pos.length rest with
          | mk tr0 oe =>
            rw [hal] at hno
            cases oe with
            | some e2 => simp [parseStep, hsep, sepArgPhase, hfa, hal, hno]
            | none =>
              cases hga : opts.args with
              | none => simp [parseStep, hsep, sepArgPhase, hfa, hal, hga, hno]
              | some g =>
                cases hg : g pos rest with
                | some e2 =>
                  simp [parseStep, hsep, sepArgPhase, hfa, hal, hga, hg,
                    noOptEvents_append, noOptEvents, isOptEvent] at hno ⊢
                  exact hno
                | none =>
                  simp [parseStep, hsep, sepArgPhase, hfa, hal, hga, hg,
                    noOptEvents_append, noOptEvents, isOptEvent] at hno ⊢
                  exact hno
      · have hfp : true = true ∨ dash.isPrefixOf a0 = false ∨ a0 = dash ∨ a0 = ddash :=
          Or.inl rfl
        cases hfa : opts.arg with
        | none =>
          simp [parseStep, hsep, hfp, hfa]
          exact ih (pos ++ [a0]) rest
        | some f2 =>
          cases hff : f2 pos.length a0 false with
          | some e2 => simp [parseStep, hsep, hfp, hfa, hff, noOptEvents, isOptEvent]
          | none =>
            simp [parseStep, hsep, hfp, hfa, hff, noOptEvents_cons, isOptEvent]
            have := ih (pos ++ [a0]) rest
            simpa [noOptEvents] using this

theorem parseF_exited_noDDash_ok (opts : Options) (flags : Flags)
    (hnd : flags.noDDash = true) :
    ∀ n positional args l,
      (parseF opts flags n positional true args).2 = PResult.ok l →
      l = positional ++ args := by
  intro n
  induction n with
  | zero => intro pos args l h; simp [parseF, fuelOut] at h
  | succ n ih =>
    intro pos args l h
    rw [parseF_succ] at h
    cases args with
    | nil =>
      cases hga : opts.args with
      | none => simp [parseStep, hga] at h; simp [h]
      | some g =>
        cases hg : g pos [] with
        | some e2 => simp [parseStep, hga, hg] at h
        | none => simp [parseStep, hga, hg] at h; simp [h]
    | cons a0 rest =>
      have hsep : ¬(a0 = ddash ∧ flags.noDDash = false) := by
        simp [hnd]
      have hfp : true = true ∨ dash.isPrefixOf a0 = false ∨ a0 = dash ∨ a0 = ddash :=
        Or.inl rfl
      cases hfa : opts.arg with
      | none =>
        simp [parseStep, hsep, hnd, hfp, hfa] at h
        simp [ih (pos ++ [a0]) rest l h]
      | some f2 =>
        cases hff : f2 pos.length a0 false with
        | some e2 => simp [parseStep, hsep, hnd, hfp, hfa, hff] at h
        | none =>
          simp [parseStep, hsep, hnd, hfp, hfa, hff] at h
          simp [ih (pos ++ [a0]) rest l h]

theorem shape_not_sep (a0 : Str)
    (hs : dash.isPrefixOf a0 = false ∨ a0 = dash) :
    ¬(a0 = ddash ∧ True) := by
  rintro ⟨rfl, -⟩
  rcases hs with hs | hs
  · exact absurd hs (by decide)
  · exact absurd hs (by decide)

theorem parseF_shape (opts : Options) (flags : Flags) :
    ∀ n positional exited args,
      (∀ t ∈ args, dash.isPrefixOf t = false ∨ t = dash) →
      noOptEvents (parseF opts flags n positional exited args).1 = true ∧
        (∀ l, (parseF opts flags n positional exited args).2 = PResult.ok l →
          l = positional ++ args) := by
  intro n
  induction n with
  | zero =>
    intro pos exited args hshape
    constructor
    · simp [parseF, fuelOut, noOptEvents_nil]
    · intro l h
      simp [parseF, fuelOut] at h
  | succ n ih =>
    intro pos exited args hshape
    rw [parseF_succ]
    cases args with
    | nil =>
      cases hga : opts.args with
      | none =>
        constructor
        · simp [parseStep, hga, noOptEvents_nil]
        · intro l h
          simp [parseStep, hga] at h
          simp [h]
      | some g =>
        cases hg : g pos [] with
        | some e2 =>
          constructor
          · simp [parseStep, hga, hg, noOptEvents, isOptEvent]
          · intro l h
            simp [parseStep, hga, hg] at h
        | none =>
          constructor
          · simp [parseStep, hga, hg, noOptEvents, isOptEvent]
          · intro l h
            simp [parseStep, hga, hg] at h
            simp [h]
    | cons a0 rest =>
      have hs0 : dash.isPrefixOf a0 = false ∨ a0 = dash :=
        hshape a0 (List.mem_cons_self a0 rest)
      have hrest : ∀ t ∈ rest, dash.isPrefixOf t = false ∨ t = dash :=
        fun t ht => hshape t (List.mem_cons_of_mem a0 ht)
      have hsep : ¬(a0 = ddash ∧ flags.noDDash = false) := by
        rintro ⟨rfl, -⟩
        rcases hs0 with hs | hs
        · exact absurd hs (by decide)
        · exact absurd hs (by decide)
      have hfp : exited = true ∨ dash.isPrefixOf a0 = false ∨ a0 = dash ∨ a0 = ddash := by
        rcases hs0 with hs | hs
        · exact Or.inr (Or.inl hs)
        · exact Or.inr (Or.inr (Or.inl hs))
      obtain ⟨ihn, iho⟩ := ih (pos ++ [a0]) (exited || flags.earlyExit) rest hrest
      cases hfa : opts.arg with
      | none =>
        constructor
        · simp [parseStep, hsep, hfp, hfa]
          exact ihn
        · intro l h
          simp [parseStep, hsep, hfp, hfa] at h
          simp [iho l h]
      | some f2 =>
        cases hff : f2 pos.length a0 false with
        | some e2 =>
          constructor
          · simp [parseStep, hsep, hfp, hfa, hff, noOptEvents, isOptEvent]
          · intro l h
            simp [parseStep, hsep, hfp, hfa, hff] at h
        | none =>
          constructor
          · simp [parseStep, hsep, hfp, hfa, hff, noOptEvents_cons, isOptEvent]
            simpa [noOptEvents] using ihn
          · intro l h
            simp [parseStep, hsep, hfp, hfa, hff] at h
            simp [iho l h]

theorem parseF_shape_ok (opts : Options) (flags : Flags)
    (harg : ∀ f2, opts.arg = some f2 → ∀ i v b, f2 i v b = none)
    (hargs : ∀ g, opts.args = some g → ∀ b a, g b a = none) :
    ∀ n positional exited args,
      (∀ t ∈ args, dash.isPrefixOf t = false ∨ t = dash) →
      tokSize args < n →
      (parseF opts flags n positional exited args).2 =
        PResult.ok (positional ++ args) := by
  intro n
  induction n with
  | zero =>
    intro pos exited args hshape hn
    omega
  | succ n ih =>
    intro pos exited args hshape hn
    rw [parseF_succ]
    cases args with
    | nil =>
      cases hga : opts.args with
      | none => simp [parseStep, hga]
      | some g => simp [parseStep, hga, hargs g hga pos []]
    | cons a0 rest =>
      have hs0 : dash.isPrefixOf a0 = false ∨ a0 = dash :=
        hshape a0 (List.mem_cons_self a0 rest)
      have hrest : ∀ t ∈ rest, dash.isPrefixOf t = false ∨ t = dash :=
        fun t ht => hshape t (List.mem_cons_of_mem a0 ht)
      have hsep : ¬(a0 = ddash ∧ flags.noDDash = false) := by
        rintro ⟨rfl, -⟩
        rcases hs0 with hs | hs
        · exact absurd hs (by decide)
        · exact absurd hs (by decide)
      have hfp : exited = true ∨ dash.isPrefixOf a0 = false ∨ a0 = dash ∨ a0 = ddash := by
        rcases hs0 with hs | hs
        · exact Or.inr (Or.inl hs)
        · exact Or.inr (Or.inr (Or.inl hs))
      have hn2 : tokSize rest < n := by
        simp [tokSize] at hn ⊢
        omega
      have := ih (pos ++ [a0]) (exited || flags.earlyExit) rest hrest hn2
      cases hfa : opts.arg with
      | none =>
        simp [parseStep, hsep, hfp, hfa, this]
      | some f2 =>
        simp [parseStep, hsep, hfp, hfa, harg f2 hfa pos.length a0 false, this]

theorem dash_pre_of_ddash_pre (s : Str) (h : ddash.isPrefixOf s = true) :
    dash.isPrefixOf s = true := by
  rw [List.isPrefixOf_iff_prefix] at h ⊢
  obtain ⟨t, rfl⟩ := h
  exact ⟨'-' :: t, rfl⟩

theorem ne_dash_of_len (s : Str) (h : 2 < s.length) : ¬ s = dash := by
  intro hs
  subst hs
  simp [dash] at h

theorem ne_ddash_of_len (s : Str) (h : 2 < s.length) : ¬ s = ddash := by
  intro hs
  subst hs
  simp [ddash] at h

theorem parse_long_step (opts : Options) (flags : Flags) (positional : List Str)
    (a0 : Str) (rest : List Str)
    (hpre : ddash.isPrefixOf a0 = true) (hlen : 2 < a0.length) :
    parse opts flags positional false (a0 :: rest) =
      parseLong opts (parse opts flags) positional false a0 rest := by
  rw [parse_unfold]
  have h1 : ¬(a0 = ddash ∧ flags.noDDash = false) := fun hh =>
    ne_ddash_of_len a0 hlen hh.1
  have h2 : ¬(dash.isPrefixOf a0 = false ∨ a0 = dash ∨ a0 = ddash) := by
    simp [dash_pre_of_ddash_pre a0 hpre, ne_dash_of_len a0 hlen,
      ne_ddash_of_len a0 hlen]
  simp [parseStep, h1, h2, hpre]

theorem parse_cluster_step (opts : Options) (flags : Flags) (positional : List Str)
    (a0 : Str) (rest : List Str)
    (hd : dash.isPrefixOf a0 = true) (hnd : ddash.isPrefixOf a0 = false)
    (hlen : 2 < a0.length) :
    parse opts flags positional false (a0 :: rest) =
      parseCluster opts (parse opts flags) positional false a0 rest := by
  rw [parse_unfold]
  have hne : ¬ a0 = ddash := by
    intro hh
    subst hh
    simp [List.isPrefixOf] at hnd
  have h1 : ¬(a0 = ddash ∧ flags.noDDash = false) := fun hh => hne hh.1
  have h2 : ¬(dash.isPrefixOf a0 = false ∨ a0 = dash ∨ a0 = ddash) := by
    simp [hd, ne_dash_of_len a0 hlen, hne]
  simp [parseStep, h1, h2, hnd, hlen]

theorem parse_bare_step (opts : Options) (flags : Flags) (positional : List Str)
    (c : Char) (rest : List Str) (hc : ¬ c = '-') :
    parse opts flags positional false (['-', c] :: rest) =
      parseBare opts (parse opts flags) positional false ['-', c] rest := by
  rw [parse_unfold]
  have hne : ¬ ['-', c] = ddash := by
    simp [ddash, hc]
  have h1 : ¬(['-', c] = ddash ∧ flags.noDDash = false) := fun hh => hne hh.1
  have hd : dash.isPrefixOf ['-', c] = true := by
    simp [dash, List.isPrefixOf]
  have hc2 : ¬ '-' = c := fun hh => hc hh.symm
  have h2 : ¬(dash.isPrefixOf ['-', c] = false ∨ ['-', c] = dash ∨
      ['-', c] = ddash) := by
    simp [hd, dash, hne]
  have hnd : ddash.isPrefixOf ['-', c] = false := by
    simp [ddash, List.isPrefixOf, hc2]
  simp [parseStep, h1, h2, hnd]

theorem parse_pos_step (opts : Options) (flags : Flags) (positional : List Str)
    (exited : Bool) (a0 : Str) (rest : List Str)
    (h1 : ¬(a0 = ddash ∧ flags.noDDash = false))
    (h2 : exited = true ∨ dash.isPrefixOf a0 = false ∨ a0 = dash ∨ a0 = ddash) :
    parse opts flags positional exited (a0 :: rest) =
      match opts.arg with
      | some f =>
        match f positional.length a0 false with
        | some e => ([.arg positional.length a0 false], .err e)
        | none =>
          (.arg positional.length a0 false ::
              (parse opts flags (positional ++ [a0]) (exited || flags.earlyExit) rest).1,
            (parse opts flags (positional ++ [a0]) (exited || flags.earlyExit) rest).2)
      | none => parse opts flags (positional ++ [a0]) (exited || flags.earlyExit) rest := by
  rw [parse_unfold]
  simp [parseStep, h1, h2]

theorem parse_sep_step (opts : Options) (flags : Flags) (positional : List Str)
    (exited : Bool) (rest : List Str) (hnd : flags.noDDash = false) :
    parse opts flags positional exited (ddash :: rest) =
      match sepArgPhase opts positional.length rest with
      | (tr, some e) => (tr, .err e)
      | (tr, none) =>
        match opts.args with
        | some g =>
          match g positional rest with
          | some e => (tr ++ [.argsEv positional rest], .err e)
          | none => (tr ++ [.argsEv positional rest], .ok (positional ++ rest))
        | none => (tr, .ok (positional ++ rest)) := by
  rw [parse_unfold]
  simp [parseStep, hnd]

/-- C3: every error the engine itself synthesizes (callbacks succeeding, so
all returned errors are the engine's own: missing required argument,
disallowed argument on a boolean, invalid clustered boolean, too few values
for a two-value option, unknown option) satisfies the invalid-command-line
category check `errsIs · ErrCmdline`, for `parse` and for `ParseS` including
its no-subcommand failure; each of the four sentinels `ErrHelp`,
`ErrVersion`, `ErrUnknown`, `ErrNoSubcommand` is in the category; and every
error built by the `Errorf` helper wrapping a cause `c` matches both
`ErrCmdline` and `c`. -/
theorem C3_error_taxonomy :
    (∀ (opts : Options) (flags : Flags) positional exited args e,
      neverFails opts →
      (parse opts flags positional exited args).2 = PResult.err e →
      errsIs e ErrCmdline = true) ∧
    (∀ (opts : Options) args e,
      neverFails opts →
      (ParseS opts args).2 = PResult.err e →
      errsIs e ErrCmdline = true) ∧
    errsIs ErrHelp ErrCmdline = true ∧
    errsIs ErrVersion ErrCmdline = true ∧
    errsIs ErrUnknown ErrCmdline = true ∧
    errsIs ErrNoSubcommand ErrCmdline = true ∧
    (∀ m c, errsIs (ErrorfW m c) ErrCmdline = true ∧
      errsIs (ErrorfW m c) c = true) := by
  have core : ∀ (opts : Options) (flags : Flags) positional exited args e,
      neverFails opts →
      (parse opts flags positional exited args).2 = PResult.err e →
      errsIs e ErrCmdline = true := by
    intro opts flags pos ex args e hnf h
    obtain ⟨hopt, hoptN, harg, hargs⟩ := hnf
    obtain ⟨inner, rfl⟩ :=
      parseF_err_cmdline opts flags hopt hoptN harg hargs _ pos ex args e h
    exact errsIs_cmdline_sentinel inner
  refine ⟨core, ?_, errsIs_cmdline_sentinel _, errsIs_cmdline_sentinel _,
    errsIs_cmdline_sentinel _, errsIs_cmdline_sentinel _,
    fun m c => ⟨ErrorfW_is_cmdline m c, ErrorfW_is_cause m c⟩⟩
  intro opts args e hnf h
  cases hp : parse opts ⟨true, true⟩ [] false args with
  | mk tr r =>
    cases r with
    | ok l =>
      by_cases hl : l = []
      · simp [ParseS, hp, hl] at h
        rw [← h]
        exact errsIs_cmdline_sentinel _
      · simp [ParseS, hp, hl] at h
    | err e2 =>
      simp [ParseS, hp] at h
      refine core opts ⟨true, true⟩ [] false args e hnf ?_
      rw [hp, ← h]
    | panicked m =>
      simp [ParseS, hp] at h

/-- C9: when a token is classified `TakeTwoArgs` with enough value tokens
available but the schema lacks the `OptionN` capability, `parse` panics (in
the long, clustered, and bare short forms, with the source's respective
messages) and never returns the condition as an error value. -/
theorem C9_missing_optionN_panics :
    (∀ (opts : Options) (flags : Flags) positional (name : Str) v1 v2 rest,
      ddash.isPrefixOf name = true → 2 < name.length → '=' ∉ name →
      opts.kind name = Kind.takeTwoArgs → opts.optionN = none →
      parse opts flags positional false (name :: v1 :: v2 :: rest) =
        ([], PResult.panicked panicMsg1)) ∧
    (∀ (opts : Options) (flags : Flags) positional (c d : Char) (cs : Str) v2 rest,
      ¬ c = '-' → opts.kind ['-', c] = Kind.takeTwoArgs → opts.optionN = none →
      parse opts flags positional false (('-' :: c :: d :: cs) :: v2 :: rest) =
        ([], PResult.panicked panicMsg1)) ∧
    (∀ (opts : Options) (flags : Flags) positional (c : Char) v1 v2 rest,
      ¬ c = '-' → opts.kind ['-', c] = Kind.takeTwoArgs → opts.optionN = none →
      parse opts flags positional false (['-', c] :: v1 :: v2 :: rest) =
        ([], PResult.panicked panicMsg2)) := by
  refine ⟨?_, ?_, ?_⟩
  · intro opts flags pos name v1 v2 rest hpre hlen hne hk hN
    rw [parse_long_step opts flags pos name (v1 :: v2 :: rest) hpre hlen]
    simp [parseLong, cutEq_no_sep name hne, hk, dispatchN, hN]
  · intro opts flags pos c d cs v2 rest hc hk hN
    have hc2 : ¬ '-' = c := fun hh => hc hh.symm
    rw [parse_cluster_step opts flags pos ('-' :: c :: d :: cs) (v2 :: rest)
      (by simp [dash, List.isPrefixOf])
      (by simp [ddash, List.isPrefixOf, hc2])
      (by simp)]
    simp [parseCluster, hk, dispatchN, hN]
  · intro opts flags pos c v1 v2 rest hc hk hN
    rw [parse_bare_step opts flags pos c (v1 :: v2 :: rest) hc]
    simp [parseBare, hk, dispatchN, hN]

theorem C9_missing_optionN_panics_witness :
    parse bOpts ⟨false, false⟩ [] false [str ("--set"), str ("a"), str ("b")] =
      ([], PResult.panicked panicMsg1) ∧
    parse bOpts ⟨false, false⟩ [] false [str ("-sab"), str ("c")] =
      ([], PResult.panicked panicMsg1) ∧
    parse bOpts ⟨false, false⟩ [] false [str ("-s"), str ("a"), str ("b")] =
      ([], PResult.panicked panicMsg2) := by
  refine ⟨?_, ?_, ?_⟩
  · exact C9_missing_optionN_panics.1 bOpts ⟨false, false⟩ [] (str ("--set"))
      (str ("a")) (str ("b")) [] (by decide) (by decide) (by decide)
      (by decide) rfl
  · exact C9_missing_optionN_panics.2.1 bOpts ⟨false, false⟩ [] 's' 'a' ['b']
      (str ("c")) [] (by decide) (by decide) rfl
  · exact C9_missing_optionN_panics.2.2 bOpts ⟨false, false⟩ [] 's' (str ("a"))
      (str ("b")) [] (by decide) (by decide) rfl

theorem ddash_pre_append (name x : Str) (h : ddash.isPrefixOf name = true) :
    ddash.isPrefixOf (name ++ x) = true := by
  rw [List.isPrefixOf_iff_prefix] at h ⊢
  exact h.trans (List.prefix_append name x)

/-- C3 witness: the taxonomy applied to a concrete engine failure and a
concrete wrapped cause. -/
theorem C3_error_taxonomy_witness :
    errsIs (unknownOptErr (str ("-x"))) ErrCmdline = true ∧
    errsIs (ErrorfW (str ("m")) (GoError.base (str ("c"))))
      (GoError.base (str ("c"))) = true := by
  constructor
  · refine C3_error_taxonomy.1 bOpts ⟨false, false⟩ [] false [str ("-x")] _
      ⟨fun n v h => rfl, ?_, ?_, ?_⟩ (by decide)
    all_goals intro x hx
    all_goals simp [bOpts] at hx
  · exact (C3_error_taxonomy.2.2.2.2.2.2 (str ("m")) (GoError.base (str ("c")))).2

/-- C7: a `Required` option missing its value returns a "requires an
argument" error (no panic), in both long and bare short form; an
`=`-supplied value is kept consuming one token; otherwise the next token
becomes the value, consuming two; and the missing-value error is in the
invalid-command-line category. -/
theorem C7_required_value_rules :
    (∀ (opts : Options) (flags : Flags) positional (name : Str),
      ddash.isPrefixOf name = true → 2 < name.length → '=' ∉ name →
      opts.kind name = Kind.required →
      parse opts flags positional false [name] =
        ([], PResult.err (requiresArgErr name))) ∧
    (∀ (opts : Options) (flags : Flags) positional (c : Char),
      ¬ c = '-' → opts.kind ['-', c] = Kind.required →
      parse opts flags positional false [['-', c]] =
        ([], PResult.err (requiresArgErr ['-', c]))) ∧
    (∀ (opts : Options) (flags : Flags) positional (name tail : Str) rest,
      ddash.isPrefixOf name = true → 2 < name.length → '=' ∉ name →
      opts.kind name = Kind.required →
      parse opts flags positional false ((name ++ '=' :: tail) :: rest) =
        dispatch opts name tail true (parse opts flags positional false rest)) ∧
    (∀ (opts : Options) (flags : Flags) positional (name v : Str) rest,
      ddash.isPrefixOf name = true → 2 < name.length → '=' ∉ name →
      opts.kind name = Kind.required →
      parse opts flags positional false (name :: v :: rest) =
        dispatch opts name v true (parse opts flags positional false rest)) ∧
    (∀ name : Str, errsIs (requiresArgErr name) ErrCmdline = true) := by
  refine ⟨?_, ?_, ?_, ?_, fun name => errsIs_cmdline_sentinel _⟩
  · intro opts flags pos name hpre hlen hne hk
    rw [parse_long_step opts flags pos name [] hpre hlen]
    simp [parseLong, cutEq_no_sep name hne, hk]
  · intro opts flags pos c hc hk
    rw [parse_bare_step opts flags pos c [] hc]
    simp [parseBare, hk]
  · intro opts flags pos name tail rest hpre hlen hne hk
    have hpre2 : ddash.isPrefixOf (name ++ '=' :: tail) = true :=
      ddash_pre_append name ('=' :: tail) hpre
    have hlen2 : 2 < (name ++ '=' :: tail).length := by
      simp [List.length_append]
      omega
    rw [parse_long_step opts flags pos (name ++ '=' :: tail) rest hpre2 hlen2]
    simp [parseLong, cutEq_sep name tail hne, hk]
  · intro opts flags pos name v rest hpre hlen hne hk
    rw [parse_long_step opts flags pos name (v :: rest) hpre hlen]
    simp [parseLong, cutEq_no_sep name hne, hk]

theorem C7_required_value_rules_witness :
    parse bOpts ⟨false, false⟩ [] false [str ("--required")] =
      ([], PResult.err (requiresArgErr (str ("--required")))) ∧
    parse bOpts ⟨false, false⟩ [] false [str ("-r")] =
      ([], PResult.err (requiresArgErr (str ("-r")))) ∧
    parse bOpts ⟨false, false⟩ [] false [str ("--required=v")] =
      dispatch bOpts (str ("--required")) (str ("v")) true
        (parse bOpts ⟨false, false⟩ [] false []) ∧
    parse bOpts ⟨false, false⟩ [] false [str ("--required"), str ("v")] =
      dispatch bOpts (str ("--required")) (str ("v")) true
        (parse bOpts ⟨false, false⟩ [] false []) ∧
    errsIs (requiresArgErr (str ("--required"))) ErrCmdline = true := by
  refine ⟨?_, ?_, ?_, ?_, ?_⟩
  · exact C7_required_value_rules.1 bOpts ⟨false, false⟩ [] (str ("--required"))
      (by decide) (by decide) (by decide) (by decide)
  · exact C7_required_value_rules.2.1 bOpts ⟨false, false⟩ [] 'r'
      (by decide) (by decide)
  · exact C7_required_value_rules.2.2.1 bOpts ⟨false, false⟩ []
      (str ("--required")) (str ("v")) [] (by decide) (by decide) (by decide)
      (by decide)
  · exact C7_required_value_rules.2.2.2.1 bOpts ⟨false, false⟩ []
      (str ("--required")) (str ("v")) [] (by decide) (by decide) (by decide)
      (by decide)
  · exact C7_required_value_rules.2.2.2.2 (str ("--required"))

/-- C2 counterexample: in the long form, an `ErrUnknown` failure from the
two-value capability is not rewrapped as an unknown-option error (unlike the
clustered and bare short forms); it is wrapped as "option <name>: <cause>". -/
theorem C2_counterexample :
    parse unknownNOpts ⟨false, false⟩ [] false
        [str ("--set"), str ("a"), str ("b")] =
      ([Event.optN (str ("--set")) [str ("a"), str ("b")]],
        PResult.err (optionCbErr (str ("--set")) ErrUnknown)) ∧
    ¬ optionCbErr (str ("--set")) ErrUnknown = unknownOptErr (str ("--set")) := by
  constructor
  · decide
  · decide

/-- C2 as amended: a long `TakeTwoArgs` option rejects the `=` form, fails
with "requires 2 arguments" when fewer than two tokens follow, and otherwise
dispatches the next two tokens through the `OptionN` capability consuming
three tokens; any failure signalled by that capability — including the
`ErrUnknown` sentinel — is wrapped as "option <name>: <cause>" preserving
the cause's identity (the unknown-option rewrap does not apply in the long
form). -/
theorem C2_long_takeTwoArgs :
    (∀ (opts : Options) (flags : Flags) positional (name tail : Str) rest,
      ddash.isPrefixOf name = true → 2 < name.length → '=' ∉ name →
      opts.kind name = Kind.takeTwoArgs →
      parse opts flags positional false ((name ++ '=' :: tail) :: rest) =
        ([], PResult.err (eqFormErr name))) ∧
    (∀ (opts : Options) (flags : Flags) positional (name : Str),
      ddash.isPrefixOf name = true → 2 < name.length → '=' ∉ name →
      opts.kind name = Kind.takeTwoArgs →
      parse opts flags positional false [name] =
        ([], PResult.err (requiresTwoErr name)) ∧
      ∀ v1, parse opts flags positional false [name, v1] =
        ([], PResult.err (requiresTwoErr name))) ∧
    (∀ (opts : Options) (flags : Flags) positional (name v1 v2 : Str) rest nf,
      ddash.isPrefixOf name = true → 2 < name.length → '=' ∉ name →
      opts.kind name = Kind.takeTwoArgs → opts.optionN = some nf →
      (nf name [v1, v2] = none →
        parse opts flags positional false (name :: v1 :: v2 :: rest) =
          (Event.optN name [v1, v2] ::
              (parse opts flags positional false rest).1,
            (parse opts flags positional false rest).2)) ∧
      (∀ e, nf name [v1, v2] = some e →
        parse opts flags positional false (name :: v1 :: v2 :: rest) =
          ([Event.optN name [v1, v2]],
            PResult.err (optionCbErr name e)))) ∧
    (∀ (name : Str) (e : GoError), errsIs (optionCbErr name e) e = true ∧
      errsIs (optionCbErr name e) ErrCmdline = true) := by
  refine ⟨?_, ?_, ?_, fun name e =>
    ⟨ErrorfW_is_cause _ e, ErrorfW_is_cmdline _ e⟩⟩
  · intro opts flags pos name tail rest hpre hlen hne hk
    have hpre2 : ddash.isPrefixOf (name ++ '=' :: tail) = true :=
      ddash_pre_append name ('=' :: tail) hpre
    have hlen2 : 2 < (name ++ '=' :: tail).length := by
      simp [List.length_append]
      omega
    rw [parse_long_step opts flags pos (name ++ '=' :: tail) rest hpre2 hlen2]
    simp [parseLong, cutEq_sep name tail hne, hk]
  · intro opts flags pos name hpre hlen hne hk
    constructor
    · rw [parse_long_step opts flags pos name [] hpre hlen]
      simp [parseLong, cutEq_no_sep name hne, hk]
    · intro v1
      rw [parse_long_step opts flags pos name [v1] hpre hlen]
      simp [parseLong, cutEq_no_sep name hne, hk]
  · intro opts flags pos name v1 v2 rest nf hpre hlen hne hk hN
    constructor
    · intro hcb
      rw [parse_long_step opts flags pos name (v1 :: v2 :: rest) hpre hlen]
      simp [parseLong, cutEq_no_sep name hne, hk, dispatchN, hN, hcb]
    · intro e hcb
      rw [parse_long_step opts flags pos name (v1 :: v2 :: rest) hpre hlen]
      simp [parseLong, cutEq_no_sep name hne, hk, dispatchN, hN, hcb]

theorem C2_long_takeTwoArgs_witness :
    parse nOpts ⟨false, false⟩ [] false [str ("--set=a"), str ("b")] =
      ([], PResult.err (eqFormErr (str ("--set")))) ∧
    parse nOpts ⟨false, false⟩ [] false [str ("--set"), str ("a")] =
      ([], PResult.err (requiresTwoErr (str ("--set")))) ∧
    parse nOpts ⟨false, false⟩ [] false [str ("--set"), str ("a"), str ("b")] =
      (Event.optN (str ("--set")) [str ("a"), str ("b")] ::
          (parse nOpts ⟨false, false⟩ [] false []).1,
        (parse nOpts ⟨false, false⟩ [] false []).2) ∧
    errsIs (optionCbErr (str ("--set")) ErrUnknown) ErrUnknown = true := by
  refine ⟨?_, ?_, ?_, ?_⟩
  · exact (C2_long_takeTwoArgs.1 nOpts ⟨false, false⟩ [] (str ("--set"))
      (str ("a")) [str ("b")] (by decide) (by decide) (by decide) (by decide))
  · exact (C2_long_takeTwoArgs.2.1 nOpts ⟨false, false⟩ [] (str ("--set"))
      (by decide) (by decide) (by decide) (by decide)).2 (str ("a"))
  · exact (C2_long_takeTwoArgs.2.2.1 nOpts ⟨false, false⟩ [] (str ("--set"))
      (str ("a")) (str ("b")) [] (fun _ _ => none) (by decide) (by decide)
      (by decide) (by decide) rfl).1 rfl
  · exact (C2_long_takeTwoArgs.2.2.2 (str ("--set")) ErrUnknown).1

/-- C4: parsing the clustered token `-abc` against a schema where `-a`,
`-b`, `-c` are boolean produces exactly the same trace and result as
parsing the three separate tokens; and a clustered token whose leading
option is boolean and whose third byte is `-` fails with the
invalid-option error. -/
theorem C4_clustering :
    (∀ (opts : Options) (flags : Flags) positional,
      opts.kind ['-', 'a'] = Kind.boolean →
      opts.kind ['-', 'b'] = Kind.boolean →
      opts.kind ['-', 'c'] = Kind.boolean →
      parse opts flags positional false [['-', 'a', 'b', 'c']] =
        parse opts flags positional false [['-', 'a'], ['-', 'b'], ['-', 'c']]) ∧
    (∀ (opts : Options) (flags : Flags) positional (c0 : Char) (cs : Str) rest,
      ¬ c0 = '-' → opts.kind ['-', c0] = Kind.boolean →
      parse opts flags positional false (('-' :: c0 :: '-' :: cs) :: rest) =
        ([], PResult.err invalidOptErr)) := by
  constructor
  · intro opts flags pos ha hb hc
    have e1 : parse opts flags pos false [['-', 'b', 'c']] =
        parse opts flags pos false [['-', 'b'], ['-', 'c']] := by
      rw [parse_cluster_step opts flags pos (['-', 'b', 'c']) []
          (by decide) (by decide) (by decide),
        parse_bare_step opts flags pos 'b' [['-', 'c']] (by decide)]
      simp +decide [parseCluster, parseBare, hb]
    rw [parse_cluster_step opts flags pos (['-', 'a', 'b', 'c']) []
        (by decide) (by decide) (by decide),
      parse_bare_step opts flags pos 'a' [['-', 'b'], ['-', 'c']] (by decide)]
    simp +decide [parseCluster, parseBare, ha, e1]
  · intro opts flags pos c0 cs rest hc hk
    have hc2 : ¬ '-' = c0 := fun hh => hc hh.symm
    rw [parse_cluster_step opts flags pos ('-' :: c0 :: '-' :: cs) rest
        (by simp [dash, List.isPrefixOf])
        (by simp [ddash, List.isPrefixOf, hc2])
        (by simp)]
    simp [parseCluster, hk]

theorem C4_clustering_witness :
    parse bOpts ⟨false, false⟩ [] false [['-', 'a', 'b', 'c']] =
      parse bOpts ⟨false, false⟩ [] false [['-', 'a'], ['-', 'b'], ['-', 'c']] ∧
    parse bOpts ⟨false, false⟩ [] false [['-', 'a', '-']] =
      ([], PResult.err invalidOptErr) := by
  constructor
  · exact C4_clustering.1 bOpts ⟨false, false⟩ []
      (by decide) (by decide) (by decide)
  · exact C4_clustering.2 bOpts ⟨false, false⟩ [] 'a' [] []
      (by decide) (by decide)

/-- C6: with separator handling suppressed (`ParseS` mode), a `--` token is
handled exactly like any ordinary positional and never as a separator;
`ParseS` on the empty list fails with `ErrNoSubcommand`; `ParseS` on a
single non-option token succeeds with that token as the positionals; and
whenever the underlying parse succeeds with an empty positional list,
`ParseS` replaces the result with `ErrNoSubcommand`. -/
theorem C6_parseS_subcommand :
    (∀ (opts : Options) (ee : Bool) positional exited rest,
      parse opts ⟨ee, true⟩ positional exited (ddash :: rest) =
        match opts.arg with
        | some f =>
          match f positional.length ddash false with
          | some e => ([.arg positional.length ddash false], PResult.err e)
          | none =>
            (.arg positional.length ddash false ::
                (parse opts ⟨ee, true⟩ (positional ++ [ddash]) (exited || ee) rest).1,
              (parse opts ⟨ee, true⟩ (positional ++ [ddash]) (exited || ee) rest).2)
        | none => parse opts ⟨ee, true⟩ (positional ++ [ddash]) (exited || ee) rest) ∧
    (∀ opts : Options, (∀ g, opts.args = some g → g [] [] = none) →
      (ParseS opts []).2 = PResult.err ErrNoSubcommand) ∧
    (∀ (opts : Options) (t : Str),
      dash.isPrefixOf t = false →
      (∀ f, opts.arg = some f → f 0 t false = none) →
      (∀ g, opts.args = some g → g [t] [] = none) →
      (ParseS opts [t]).2 = PResult.ok [t]) ∧
    (∀ (opts : Options) args tr,
      parse opts ⟨true, true⟩ [] false args = (tr, PResult.ok []) →
      ParseS opts args = (tr, PResult.err ErrNoSubcommand)) := by
  refine ⟨?_, ?_, ?_, ?_⟩
  · intro opts ee pos exited rest
    exact parse_pos_step opts ⟨ee, true⟩ pos exited ddash rest (by simp)
      (Or.inr (Or.inr (Or.inr rfl)))
  · intro opts hargs
    have hp : (parse opts ⟨true, true⟩ [] false []).2 = PResult.ok [] := by
      rw [parse_unfold]
      cases hga : opts.args with
      | none => simp [parseStep, hga]
      | some g => simp [parseStep, hga, hargs g hga]
    unfold ParseS
    cases hp2 : parse opts ⟨true, true⟩ [] false [] with
    | mk tr r =>
      rw [hp2] at hp
      simp at hp
      subst hp
      simp
  · intro opts t ht harg hargs
    have hend : ∀ e2 : Bool, (parse opts ⟨true, true⟩ [t] e2 []).2 = PResult.ok [t] := by
      intro e2
      rw [parse_unfold]
      cases hga : opts.args with
      | none => simp [parseStep, hga]
      | some g => simp [parseStep, hga, hargs g hga]
    have hres : (parse opts ⟨true, true⟩ [] false [t]).2 = PResult.ok [t] := by
      rw [parse_pos_step opts ⟨true, true⟩ [] false t [] (by simp)
        (Or.inr (Or.inl ht))]
      cases hfa : opts.arg with
      | none => simpa using hend _
      | some f =>
        have hf0 := harg f hfa
        simp [hfa, hf0]
        simpa using hend _
    unfold ParseS
    cases hp2 : parse opts ⟨true, true⟩ [] false [t] with
    | mk tr r =>
      rw [hp2] at hres
      simp at hres
      subst hres
      simp
  · intro opts args tr h
    simp [ParseS, h]

theorem C6_parseS_subcommand_witness :
    (ParseS bOpts []).2 = PResult.err ErrNoSubcommand ∧
    (ParseS bOpts [str ("run")]).2 = PResult.ok [str ("run")] ∧
    ParseS bOpts [] = ([], PResult.err ErrNoSubcommand) ∧
    parse bOpts ⟨true, true⟩ [] false [ddash] =
      parse bOpts ⟨true, true⟩ [ddash] true [] := by
  refine ⟨?_, ?_, ?_, ?_⟩
  · exact C6_parseS_subcommand.2.1 bOpts (fun g hg => by simp [bOpts] at hg)
  · exact C6_parseS_subcommand.2.2.1 bOpts (str ("run")) (by decide)
      (fun f hf => by simp [bOpts] at hf) (fun g hg => by simp [bOpts] at hg)
  · exact C6_parseS_subcommand.2.2.2 bOpts [] [] (by decide)
  · have h := C6_parseS_subcommand.1 bOpts true [] false []
    simpa [bOpts] using h

/-- C5 counterexample: in POSIX mode, a `--` token after the first
positional is still consumed as a separator, not kept as a positional: the
returned list omits it, so not every post-exit token is "treated as a
positional argument". -/
theorem C5_counterexample :
    ParsePOSIX bOpts [str ("x"), ddash, str ("y")] =
      ([], PResult.ok [str ("x"), str ("y")]) ∧
    ¬ ([str ("x"), str ("y")] = [str ("x"), ddash, str ("y")]) := by
  constructor
  · decide
  · decide

/-- C5 as amended: once the exited flag is set it stays set and no later
token is ever dispatched as an option (no `Option`/`OptionN` callback runs);
in `ParseS` mode (separator suppressed) every later token is appended to the
positionals verbatim; in `ParsePOSIX` mode an unsuppressed `--` is still
consumed by the separator rule (the remaining tokens become the after-list);
and the POSIX example dispatches `-a` once and returns positionals
`["x", "-b"]`. -/
theorem C5_early_exit :
    (∀ (opts : Options) (flags : Flags) positional args,
      noOptEvents (parse opts flags positional true args).1 = true) ∧
    (∀ (opts : Options) (flags : Flags) positional args l,
      flags.noDDash = true →
      (parse opts flags positional true args).2 = PResult.ok l →
      l = positional ++ args) ∧
    (∀ (opts : Options) (flags : Flags) positional rest,
      flags.noDDash = false →
      parse opts flags positional true (ddash :: rest) =
        match sepArgPhase opts positional.length rest with
        | (tr, some e) => (tr, PResult.err e)
        | (tr, none) =>
          match opts.args with
          | some g =>
            match g positional rest with
            | some e => (tr ++ [.argsEv positional rest], PResult.err e)
            | none => (tr ++ [.argsEv positional rest], PResult.ok (positional ++ rest))
          | none => (tr, PResult.ok (positional ++ rest))) ∧
    ParsePOSIX bOpts [str ("-a"), str ("x"), str ("-b")] =
      ([Event.opt (str ("-a")) [] false], PResult.ok [str ("x"), str ("-b")]) := by
  refine ⟨?_, ?_, ?_, by decide⟩
  · intro opts flags pos args
    exact parseF_exited_noOpt opts flags (tokSize args + 1) pos args
  · intro opts flags pos args l hnd h
    exact parseF_exited_noDDash_ok opts flags hnd (tokSize args + 1) pos args l h
  · intro opts flags pos rest hnd
    exact parse_sep_step opts flags pos true rest hnd

theorem C5_early_exit_witness :
    noOptEvents (parse bOpts ⟨true, false⟩ [] true [str ("-a")]).1 = true ∧
    ([str ("p"), str ("-a")] : List Str) = [str ("p")] ++ [str ("-a")] ∧
    parse bOpts ⟨true, false⟩ [str ("x")] true [ddash, str ("y")] =
      ([], PResult.ok [str ("x"), str ("y")]) := by
  refine ⟨?_, ?_, ?_⟩
  · exact C5_early_exit.1 bOpts ⟨true, false⟩ [] [str ("-a")]
  · exact C5_early_exit.2.1 bOpts ⟨true, true⟩ [str ("p")] [str ("-a")]
      [str ("p"), str ("-a")] rfl (by decide)
  · have h := C5_early_exit.2.2.1 bOpts ⟨true, false⟩ [str ("x")] [str ("y")] rfl
    simpa [bOpts, sepArgPhase] using h

/-- C1: at an unsuppressed `--`, when the per-item and batch capabilities
are present and succeed, parse consumes the separator once, reports each
remaining token through `Arg` with `afterSeparator = true` and indices
continuing from the current positional count, invokes `Args` once with the
positionals so far and the remaining tokens, and returns the before-list
concatenated with the after-list; and in general a successful parse returns
exactly the sequence of values the positional callbacks observed, in
order. -/
theorem C1_separator_roundtrip :
    (∀ (opts : Options) (flags : Flags) positional exited rest f g,
      flags.noDDash = false →
      opts.arg = some f → opts.args = some g →
      (∀ i v, f i v true = none) → g positional rest = none →
      parse opts flags positional exited (ddash :: rest) =
        (afterEvents positional.length rest ++ [Event.argsEv positional rest],
          PResult.ok (positional ++ rest))) ∧
    (∀ (opts : Options) (flags : Flags) positional exited args f l,
      opts.arg = some f →
      (parse opts flags positional exited args).2 = PResult.ok l →
      l = positional ++ argValues (parse opts flags positional exited args).1) := by
  constructor
  · intro opts flags pos exited rest f g hnd hf hg hcb hgr
    rw [parse_sep_step opts flags pos exited rest hnd]
    simp [sepArgPhase, hf, argLoop_ok f hcb pos.length rest, hg, hgr]
  · intro opts flags pos exited args f l hf h
    exact parseF_ok_argValues opts flags f hf (tokSize args + 1) pos exited args l h

theorem C1_separator_roundtrip_witness :
    parse wOpts ⟨false, false⟩ [str ("p")] false (ddash :: [str ("x"), str ("-a")]) =
      ([Event.arg 1 (str ("x")) true, Event.arg 2 (str ("-a")) true,
        Event.argsEv [str ("p")] [str ("x"), str ("-a")]],
        PResult.ok [str ("p"), str ("x"), str ("-a")]) ∧
    ([str ("x")] : List Str) =
      [] ++ argValues (parse wOpts ⟨false, false⟩ [] false [str ("x")]).1 := by
  constructor
  · have h := C1_separator_roundtrip.1 wOpts ⟨false, false⟩ [str ("p")] false
      [str ("x"), str ("-a")] (fun _ _ _ => none) (fun _ _ => none)
      rfl rfl rfl (fun i v => rfl) rfl
    simpa [afterEvents] using h
  · exact C1_separator_roundtrip.2 wOpts ⟨false, false⟩ [] false [str ("x")]
      (fun _ _ _ => none) [str ("x")] rfl (by decide)

/-- C8 counterexample: the empty input has no option-shaped tokens, yet
`ParseS` does not return the (empty) input as its positional list — it
fails with the no-subcommand sentinel. -/
theorem C8_counterexample :
    ParseS bOpts [] = ([], PResult.err ErrNoSubcommand) ∧
    ¬ (PResult.err ErrNoSubcommand = PResult.ok ([] : List Str)) := by
  constructor
  · decide
  · decide

/-- C8 as amended: for inputs with no option-shaped token (every token
either does not start with `-` or is exactly `-`), no `Option`/`OptionN`
dispatch is ever made and any successful result is the input appended to
the accumulated positionals verbatim; with succeeding positional callbacks,
`Parse` and `ParsePOSIX` return exactly the input, and so does `ParseS`
except on the empty input, where it fails with the no-subcommand
sentinel. -/
theorem C8_no_options_verbatim :
    (∀ (opts : Options) (flags : Flags) positional exited args,
      (∀ t ∈ args, dash.isPrefixOf t = false ∨ t = dash) →
      noOptEvents (parse opts flags positional exited args).1 = true ∧
        (∀ l, (parse opts flags positional exited args).2 = PResult.ok l →
          l = positional ++ args)) ∧
    (∀ (opts : Options) args,
      (∀ t ∈ args, dash.isPrefixOf t = false ∨ t = dash) →
      (∀ f, opts.arg = some f → ∀ i v b, f i v b = none) →
      (∀ g, opts.args = some g → ∀ b a, g b a = none) →
      (Parse opts args).2 = PResult.ok args ∧
      (ParsePOSIX opts args).2 = PResult.ok args ∧
      (¬ args = [] → (ParseS opts args).2 = PResult.ok args)) := by
  constructor
  · intro opts flags pos exited args hshape
    exact parseF_shape opts flags (tokSize args + 1) pos exited args hshape
  · intro opts args hshape harg hargs
    refine ⟨?_, ?_, ?_⟩
    · have h := parseF_shape_ok opts ⟨false, false⟩ harg hargs
        (tokSize args + 1) [] false args hshape (by omega)
      simpa [Parse, parse] using h
    · have h := parseF_shape_ok opts ⟨true, false⟩ harg hargs
        (tokSize args + 1) [] false args hshape (by omega)
      simpa [ParsePOSIX, parse] using h
    · intro hne
      have hu : (parse opts ⟨true, true⟩ [] false args).2 = PResult.ok args := by
        have h := parseF_shape_ok opts ⟨true, true⟩ harg hargs
          (tokSize args + 1) [] false args hshape (by omega)
        simpa [parse] using h
      unfold ParseS
      cases hp2 : parse opts ⟨true, true⟩ [] false args with
      | mk tr r =>
        rw [hp2] at hu
        simp at hu
        subst hu
        simp [hne]

theorem C8_no_options_verbatim_witness :
    noOptEvents (parse bOpts ⟨false, false⟩ [] false [str ("x"), dash]).1 = true ∧
    ([str ("x"), dash] : List Str) = [] ++ [str ("x"), dash] ∧
    (Parse bOpts [str ("x"), dash]).2 = PResult.ok [str ("x"), dash] ∧
    (ParsePOSIX bOpts [str ("x"), dash]).2 = PResult.ok [str ("x"), dash] ∧
    (ParseS bOpts [str ("x"), dash]).2 = PResult.ok [str ("x"), dash] := by
  have hshape : ∀ t ∈ [str ("x"), dash], dash.isPrefixOf t = false ∨ t = dash := by
    decide
  have harg : ∀ f, bOpts.arg = some f → ∀ i v b, f i v b = none := by
    intro f hf
    simp [bOpts] at hf
  have hargs : ∀ g, bOpts.args = some g → ∀ b a, g b a = none := by
    intro g hg
    simp [bOpts] at hg
  obtain ⟨h1, h2⟩ := C8_no_options_verbatim.1 bOpts ⟨false, false⟩ [] false
    [str ("x"), dash] hshape
  obtain ⟨h3, h4, h5⟩ := C8_no_options_verbatim.2 bOpts [str ("x"), dash]
    hshape harg hargs
  exact ⟨h1, h2 _ (by decide), h3, h4, h5 (by decide)⟩

theorem setFold_frame :
    ∀ (ws : List (Nat × Str)) (b : List Str) (i : Nat),
      (∀ v, (i, v) ∉ ws) →
      (ws.foldl (fun acc w => acc.set w.1 w.2) b)[i]? = b[i]? := by
  intro ws
  induction ws with
  | nil =>
    intro b i h
    rfl
  | cons w ws ih =>
    intro b i h
    obtain ⟨wi, wv⟩ := w
    have h1 : ∀ v, (i, v) ∉ ws := fun v hv => h v (List.mem_cons_of_mem _ hv)
    have h2 : wi ≠ i := by
      intro hh
      exact h wv (by rw [← hh]; exact List.mem_cons_self _ _)
    rw [List.foldl_cons]
    rw [ih (b.set wi wv) i h1]
    exact List.getElem?_set_ne h2

theorem parseSliceF_writes (opts : Options) (flags : Flags) :
    ∀ n positional exited backing off args,
      (parseSliceF opts flags n positional exited backing off args).1 =
        (parseSliceF opts flags n positional exited backing off args).2.1.foldl
          (fun acc w => acc.set w.1 w.2) backing := by
  intro n
  induction n with
  | zero =>
    intro pos ex backing off args
    simp [parseSliceF, sliceFuelOut]
  | succ n ih =>
    intro pos ex backing off args
    rw [parseSliceF_succ]
    unfold sliceStep dispatchS dispatchSN logWrite
    repeat' split
    all_goals first
    | rfl
    | (exact ih _ _ _ _ _)
    | simp
    | (simp only [logWrite]
       simp [ih _ _ (backing.set off ('-' :: List.drop 2 _)) off _])

/-- C10: the clustered-boolean expansion overwrites the current element of
the caller's `args` slice in place — the caller can observe the mutation in
the backing array it passed (concretely, parsing `["-ab"]` leaves `["-b"]`
in the backing array) — while every other branch only re-slices: the final
backing array is exactly the initial one with the logged writes applied, so
it is unchanged at every index the (clustered-boolean) write log does not
mention. -/
theorem C10_cluster_writes_in_place :
    (ParseSlice bOpts ⟨false, false⟩ [str ("-ab")] =
        ([str ("-b")], [(0, str ("-b"))], PResult.ok []) ∧
      ¬ (str ("-b") = str ("-ab"))) ∧
    (∀ (opts : Options) (flags : Flags) positional exited backing off args,
      (parseSlice opts flags positional exited backing off args).1 =
        (parseSlice opts flags positional exited backing off args).2.1.foldl
          (fun acc w => acc.set w.1 w.2) backing) ∧
    (∀ (opts : Options) (flags : Flags) positional exited backing off args i,
      (∀ v, (i, v) ∉ (parseSlice opts flags positional exited backing off args).2.1) →
      (parseSlice opts flags positional exited backing off args).1[i]? =
        backing[i]?) := by
  refine ⟨⟨by decide, by decide⟩, ?_, ?_⟩
  · intro opts flags pos ex backing off args
    exact parseSliceF_writes opts flags (tokSize args + 1) pos ex backing off args
  · intro opts flags pos ex backing off args i hw
    unfold parseSlice at hw ⊢
    rw [parseSliceF_writes opts flags (tokSize args + 1) pos ex backing off args]
    exact setFold_frame _ backing i hw

theorem C10_cluster_writes_in_place_witness :
    (parseSlice bOpts ⟨false, false⟩ [] false [str ("-ab"), str ("y")] 0
        [str ("-ab"), str ("y")]).1[1]? = [str ("-ab"), str ("y")][1]? := by
  refine C10_cluster_writes_in_place.2.2 bOpts ⟨false, false⟩ [] false
    [str ("-ab"), str ("y")] 0 [str ("-ab"), str ("y")] 1 ?_
  intro v hv
  have he : (parseSlice bOpts ⟨false, false⟩ [] false [str ("-ab"), str ("y")] 0
      [str ("-ab"), str ("y")]).2.1 = [(0, str ("-b"))] := by decide
  rw [he] at hv
  simp at hv
